import Mathlib

/-!
# Pomodoro timer state machine

A shallow embedding of `main.go`: the `Model` record, `NewModel`, `Update`,
`switchPhase`, `sendNotification`, the clock and the progress bar of `View`, and
the argument handling of `main`.

* `time.Duration` is an `int64` count of nanoseconds.  It is embedded as `Int`;
  the two arithmetic operations of the program (`*` in `NewModel` and `-=` in
  the tick branch of `Update`) wrap to 64 bits through `wrapInt64`.
* `Update` has one side effect, the call `m.sendNotification()`.  The embedding
  returns, next to the new model and the command, the list of receivers on
  which `sendNotification` was called, in call order.
* `sendNotification` itself is embedded as the list of external actions it
  performs (`beeep.Notify`, `playSound`), in order.
* `View` works in `float64`; a `float64` value is embedded as the rational it
  denotes and every operation rounds to nearest, ties to even (`roundF64`).
* `main` is embedded from the parsed flag values and the positional arguments
  up to the model it hands to the event loop.
-/

namespace Pomodoro

/-! ## Machine integers and durations -/

/-- Largest `int64`. -/
def maxInt64 : Int := 9223372036854775807

/-- Smallest `int64`. -/
def minInt64 : Int := -9223372036854775808

/-- Two's complement wrap of an integer to `int64`. -/
def wrapInt64 (x : Int) : Int := (x + 9223372036854775808) % 18446744073709551616 - 9223372036854775808

/-- Go's `time.Second`. -/
def Second : Int := 1000000000

/-- Go's `time.Minute`. -/
def Minute : Int := 60000000000

/-! ## Data model -/

/-- Go's `type NotifyMode string`. -/
abbrev NotifyMode := String

def NotifyNone : NotifyMode := "none"
def NotifyVisual : NotifyMode := "visual"
def NotifyAudio : NotifyMode := "audio"
def NotifyBoth : NotifyMode := "both"

/-- The two `TimerState` constants declared with `iota`. -/
inductive TimerState where
  | WorkState
  | BreakState
deriving DecidableEq, Repr

open TimerState

/-- The application state, field by field as in `type Model struct`. -/
structure Model where
  workDuration : Int
  breakDuration : Int
  remaining : Int
  state : TimerState
  running : Bool
  totalDuration : Int
  notifyMode : NotifyMode
deriving DecidableEq, Repr

/-- The messages `Update` distinguishes: a key press (carrying the result of
`msg.String()`), a `TickMsg`, and any other `tea.Msg`. -/
inductive Msg where
  | KeyMsg (key : String)
  | TickMsg
  | Other
deriving DecidableEq, Repr

/-- The commands `Update` returns: `nil`, `tea.Quit`, `tickCmd()`. -/
inductive Cmd where
  | nil
  | Quit
  | tickCmd
deriving DecidableEq, Repr

/-- External actions performed by `sendNotification`. -/
inductive Action where
  | Notify (title message appIcon : String)
  | playSound
deriving DecidableEq, Repr

/-- What one call of `Update` yields: the returned model, the returned command,
and the receivers of the `sendNotification` calls made on the way. -/
structure UpdateResult where
  model : Model
  cmd : Cmd
  notifications : List Model
deriving DecidableEq, Repr

/-! ## Operations -/

/-- `NewModel(workMinutes, breakMinutes, notifyMode)`. -/
def NewModel (workMinutes breakMinutes : Int) (notifyMode : NotifyMode) : Model :=
  let workDur := wrapInt64 (workMinutes * Minute)
  { workDuration := workDur
    breakDuration := wrapInt64 (breakMinutes * Minute)
    remaining := workDur
    state := WorkState
    running := false
    totalDuration := workDur
    notifyMode := notifyMode }

/-- `Model.switchPhase`. -/
def switchPhase (m : Model) : Model :=
  let m1 :=
    if m.state = WorkState then
      { m with state := BreakState, remaining := m.breakDuration, totalDuration := m.breakDuration }
    else
      { m with state := WorkState, remaining := m.workDuration, totalDuration := m.workDuration }
  { m1 with running := false }

/-- `Model.sendNotification`, as the list of actions it performs. -/
def sendNotification (m : Model) : List Action :=
  if m.notifyMode = NotifyNone then []
  else
    let title := "Pomodoro Timer"
    let message :=
      if m.state = WorkState then "Work session complete! Time for a break."
      else "Break is over! Ready to work?"
    if m.notifyMode = NotifyVisual then [Action.Notify title message ""]
    else if m.notifyMode = NotifyAudio then [Action.playSound]
    else if m.notifyMode = NotifyBoth then [Action.Notify title message "", Action.playSound]
    else []

/-- `Model.Update`. -/
def Update (m : Model) (msg : Msg) : UpdateResult :=
  match msg with
  | Msg.KeyMsg key =>
    if key = "q" ∨ key = "ctrl+c" then ⟨m, Cmd.Quit, []⟩
    else if key = "g" ∨ key = " " then ⟨{ m with running := !m.running }, Cmd.nil, []⟩
    else if key = "s" then ⟨switchPhase m, Cmd.nil, []⟩
    else if key = "r" then ⟨{ m with remaining := m.totalDuration, running := false }, Cmd.nil, []⟩
    else ⟨m, Cmd.nil, []⟩
  | Msg.TickMsg =>
    if m.running = true ∧ m.remaining > 0 then
      let m1 := { m with remaining := wrapInt64 (m.remaining - Second) }
      if m1.remaining ≤ 0 then
        let m2 := { m1 with remaining := 0, running := false }
        ⟨switchPhase m2, Cmd.tickCmd, [m2]⟩
      else ⟨m1, Cmd.tickCmd, []⟩
    else ⟨m, Cmd.tickCmd, []⟩
  | Msg.Other => ⟨m, Cmd.nil, []⟩

/-- The event loop's state after a finite sequence of messages: each message is
passed to `Update` and the returned model is kept. -/
def run (m : Model) (msgs : List Msg) : Model :=
  msgs.foldl (fun s msg => (Update s msg).model) m

/-- The actions performed during one `Update`: those of each
`sendNotification` call, in call order. -/
def actions (r : UpdateResult) : List Action :=
  r.notifications.flatMap sendNotification

/-- The phase `switchPhase` moves to. -/
def TimerState.other : TimerState → TimerState
  | WorkState => BreakState
  | BreakState => WorkState

/-- The configured length of a phase. -/
def Model.lengthOf (m : Model) : TimerState → Int
  | WorkState => m.workDuration
  | BreakState => m.breakDuration

/-- The `sendNotification` receivers over a message sequence: the calls made by
each `Update`, in order, the next message being applied to the model the
previous `Update` returned. -/
def runNotifications (m : Model) : List Msg → List Model
  | [] => []
  | msg :: rest => (Update m msg).notifications ++ runNotifications (Update m msg).model rest

/-! ## Startup: `main` -/

/-- Default durations in minutes. -/
def defaultWorkMinutes : Int := 25

def defaultBreakMinutes : Int := 5

/-- Reads a run of ASCII decimal digits, most significant first. -/
def parseDigits : List Char → Nat → Option Nat
  | [], acc => some acc
  | c :: cs, acc => if c.isDigit then parseDigits cs (acc * 10 + (c.toNat - 48)) else none

/-- Go's `strconv.Atoi` with a 64-bit `int`: an optional sign followed by at
least one decimal digit, the value within the `int64` range; anything else is an
error (`none`). -/
def Atoi (s : String) : Option Int :=
  let signed (negative : Bool) (ds : List Char) : Option Int :=
    if ds = [] then none
    else
      match parseDigits ds 0 with
      | none => none
      | some n =>
        let v : Int := if negative then -(n : Int) else (n : Int)
        if minInt64 ≤ v ∧ v ≤ maxInt64 then some v else none
  match s.data with
  | [] => none
  | '-' :: ds => signed true ds
  | '+' :: ds => signed false ds
  | ds => signed false ds

/-- One positional override in `main`:
`if w, err := strconv.Atoi(arg); err == nil && w > 0 { minutes = w }`. -/
def positionalOverride (minutes : Int) (arg : String) : Int :=
  match Atoi arg with
  | some w => if w > 0 then w else minutes
  | none => minutes

/-- The values of `workMinutes` and `breakMinutes` when `main` reaches
`NewModel`, from the parsed `--work` and `--break` flag values and the
positional arguments `flag.Args()`. -/
def mainMinutes (workFlag breakFlag : Int) (args : List String) : Int × Int :=
  let workMinutes := workFlag
  let breakMinutes := breakFlag
  match args with
  | a0 :: a1 :: _ => (positionalOverride workMinutes a0, positionalOverride breakMinutes a1)
  | [a0] => (positionalOverride workMinutes a0, breakMinutes)
  | [] => (workMinutes, breakMinutes)

/-- How `main` ends its own work: either `os.Exit(code)` after printing to
standard output, or the model it hands to `tea.NewProgram`. -/
inductive MainResult where
  | exit (code : Int) (stdout : String)
  | program (model : Model)
deriving DecidableEq, Repr

/-- The function `main`, from the parsed flag values (`--work`, `--break`,
`--notify`) and the positional arguments, up to the call of `tea.NewProgram`. -/
def main (workFlag breakFlag : Int) (notifyFlag : String) (args : List String) : MainResult :=
  let notifyMode : NotifyMode := notifyFlag
  if notifyMode = NotifyNone ∨ notifyMode = NotifyVisual ∨ notifyMode = NotifyAudio ∨
      notifyMode = NotifyBoth then
    let mins := mainMinutes workFlag breakFlag args
    MainResult.program (NewModel mins.1 mins.2 notifyMode)
  else
    MainResult.exit 1 ("Invalid notify mode: " ++ notifyFlag ++ " (use: none, visual, audio, both)\n")

/-! ## `float64` arithmetic

`View` computes the clock and the progress fraction in `float64`.  A finite
`float64` value is embedded as the rational number it denotes; every operation
returns the exact result rounded to the nearest value with a 53-bit significand,
ties to even (IEEE 754 binary64, round-to-nearest-even).  The exponent range is
not modelled: every value `View` forms from `int64` operands has a magnitude
between `2 ^ (-64)` and `2 ^ 70`, or is zero, far inside the normal range. -/

/-- Round to the nearest integer, ties to the even one. -/
def roundHalfEven (q : ℚ) : ℤ :=
  if q - ⌊q⌋ < 1 / 2 then ⌊q⌋
  else if 1 / 2 < q - ⌊q⌋ then ⌊q⌋ + 1
  else if ⌊q⌋ % 2 = 0 then ⌊q⌋ else ⌊q⌋ + 1

/-- The binary exponent of a non-zero rational: the `e` with
`2 ^ e ≤ |q| < 2 ^ (e + 1)`. -/
def binExp (q : ℚ) : ℤ := Int.log 2 |q|

/-- Rounding of an exact value to `float64`: the significand `q / 2 ^ (e - 52)`
with `e = binExp q` lies in `[2 ^ 52, 2 ^ 53)` and is rounded to an integer,
ties to even. -/
def roundF64 (q : ℚ) : ℚ :=
  if q = 0 then 0 else (roundHalfEven (q * 2 ^ (52 - binExp q)) : ℚ) * 2 ^ (binExp q - 52)

/-- The conversion `float64(x)` of an integer. -/
def float64 (x : Int) : ℚ := roundF64 x

/-- `float64` addition. -/
def f64Add (a b : ℚ) : ℚ := roundF64 (a + b)

/-- `float64` multiplication. -/
def f64Mul (a b : ℚ) : ℚ := roundF64 (a * b)

/-- `float64` division by a non-zero value. -/
def f64Div (a b : ℚ) : ℚ := roundF64 (a / b)

/-- The conversion `int(f)` of a `float64` that fits the integer type: the
fraction is discarded (truncation towards zero). -/
def truncInt (q : ℚ) : ℤ := if 0 ≤ q then ⌊q⌋ else ⌈q⌉

/-- Go's `time.Duration.Minutes`:
`float64(d / Minute) + float64(d % Minute) / (60 * 1e9)`. -/
def Minutes (d : Int) : ℚ :=
  f64Add (float64 (d.tdiv Minute)) (f64Div (float64 (d.tmod Minute)) 60000000000)

/-- Go's `time.Duration.Seconds`:
`float64(d / Second) + float64(d % Second) / 1e9`. -/
def Seconds (d : Int) : ℚ :=
  f64Add (float64 (d.tdiv Second)) (f64Div (float64 (d.tmod Second)) 1000000000)

/-- The verb `%02d` of `fmt.Sprintf`: decimal digits, padded on the left with
zeros to width two; a negative value prints its sign, which counts in the
width. -/
def fmt02d (n : Int) : String :=
  if n < 0 then String.mk ('-' :: Nat.toDigits 10 n.natAbs)
  else String.mk (List.leftpad 2 '0' (Nat.toDigits 10 n.toNat))

/-! ## Rendering: the progress bar of `View` -/

/-- The variable `clock` of `View`. -/
def View.clock (m : Model) : String :=
  let minutes := truncInt (Minutes m.remaining)
  let seconds := (truncInt (Seconds m.remaining)).tmod 60
  fmt02d minutes ++ ":" ++ fmt02d seconds

/-- The variable `progressWidth` of `View`. -/
def View.progressWidth : Int := 40

/-- The variable `filled` of `View`. -/
def View.filled (m : Model) : Int :=
  let elapsed := wrapInt64 (m.totalDuration - m.remaining)
  let progress : ℚ :=
    if m.totalDuration > 0 then f64Div (float64 elapsed) (float64 m.totalDuration) else 0
  truncInt (f64Mul progress (float64 View.progressWidth))

/-- The variable `clockStart` of `View`.  The clock text is ASCII, so its byte
length `len(clock)` is its number of characters. -/
def View.clockStart (m : Model) : Int :=
  (View.progressWidth - (View.clock m).length).tdiv 2

/-- The variable `clockEnd` of `View`. -/
def View.clockEnd (m : Model) : Int := View.clockStart m + (View.clock m).length

/-- The character written to the bar in iteration `i` of the loop of `View`. -/
def View.barCell (m : Model) (i : Int) : Char :=
  if i ≥ View.clockStart m ∧ i < View.clockEnd m then
    (View.clock m).data.getD (i - View.clockStart m).toNat ' '
  else if i < View.filled m then '='
  else ' '

/-- The string `bar.String()` of `View`. -/
def View.bar (m : Model) : String :=
  "[" ++ String.mk ((List.range View.progressWidth.toNat).map fun (i : ℕ) =>
    View.barCell m (i : ℤ)) ++ "]"

/-! ## The progress bar as the specification describes it -/

/-- The elapsed fraction of the specification:
`(totalDuration - remaining) / totalDuration` as an exact number, and `0` when
`totalDuration = 0`. -/
def specFraction (m : Model) : ℚ :=
  if m.totalDuration = 0 then 0
  else ((m.totalDuration - m.remaining : ℤ) : ℚ) / (m.totalDuration : ℚ)

/-- Cell `i` of the bar of the specification: a character of the clock text in
the centered run that starts at cell `(40 - len(clock)) / 2`, otherwise `=`
when `i < floor (40 * f)` for the elapsed fraction `f`, otherwise a space. -/
def specCell (m : Model) (i : ℕ) : Char :=
  if (40 - ((View.clock m).length : ℤ)).tdiv 2 ≤ (i : ℤ) ∧
      (i : ℤ) < (40 - ((View.clock m).length : ℤ)).tdiv 2 + ((View.clock m).length : ℤ) then
    (View.clock m).data.getD ((i : ℤ) - (40 - ((View.clock m).length : ℤ)).tdiv 2).toNat ' '
  else if (i : ℤ) < ⌊40 * specFraction m⌋ then '='
  else ' '

/-- The bar of the specification: `[`, forty cells, `]`. -/
def specBar (m : Model) : String :=
  "[" ++ String.mk ((List.range 40).map fun i => specCell m i) ++ "]"

/-- The state of a timer configured with 153719867 work minutes after it has run
for 5995074813 seconds: 3228117207 seconds remain. -/
def longRunState : Model :=
  { workDuration := 153719867 * Minute
    breakDuration := 5 * Minute
    remaining := 3228117207 * Second
    state := WorkState
    running := true
    totalDuration := 153719867 * Minute
    notifyMode := NotifyBoth }

/-! ## Invariants -/

/-- The progress total is the configured length of the current phase. -/
def PhaseInv (m : Model) : Prop := m.totalDuration = m.lengthOf m.state

/-- The configured lengths are non-negative `int64` values, the progress total
belongs to the current phase, and `remaining` lies between zero and the total. -/
def BoundsInv (m : Model) : Prop :=
  0 ≤ m.workDuration ∧ m.workDuration ≤ maxInt64 ∧
  0 ≤ m.breakDuration ∧ m.breakDuration ≤ maxInt64 ∧
  PhaseInv m ∧ 0 ≤ m.remaining ∧ m.remaining ≤ m.totalDuration

/-- Both configured lengths are positive whole numbers of seconds within
`int64`, the progress total belongs to the current phase, and `remaining` is a
positive whole number of seconds not above the total. -/
def PosInv (m : Model) : Prop :=
  (0 < m.workDuration ∧ m.workDuration ≤ maxInt64 ∧ Second ∣ m.workDuration) ∧
  (0 < m.breakDuration ∧ m.breakDuration ≤ maxInt64 ∧ Second ∣ m.breakDuration) ∧
  PhaseInv m ∧ 0 < m.remaining ∧ m.remaining ≤ m.totalDuration ∧ Second ∣ m.remaining

/-! ## Auxiliary lemmas -/

theorem wrapInt64_eq_self {x : Int} (hlo : minInt64 ≤ x) (hhi : x ≤ maxInt64) :
    wrapInt64 x = x := by
  unfold wrapInt64
  unfold minInt64 at hlo
  unfold maxInt64 at hhi
  rw [Int.emod_eq_of_lt (by omega) (by omega)]
  omega

theorem wrapInt64_sub_second {x : Int} (hpos : 0 < x) (hmax : x ≤ maxInt64) :
    wrapInt64 (x - Second) = x - Second := by
  apply wrapInt64_eq_self
  · unfold minInt64 Second; omega
  · unfold maxInt64 Second at *; omega

/-- The tick branch of `Update` when the timer is running and the decrement
does not reach zero. -/
theorem Update_tick_running_gt (m : Model) (hrun : m.running = true)
    (hgt : Second < m.remaining) (hmax : m.remaining ≤ maxInt64) :
    Update m Msg.TickMsg =
      ⟨{ m with remaining := m.remaining - Second }, Cmd.tickCmd, []⟩ := by
  have hpos : 0 < m.remaining := by unfold Second at hgt; omega
  have hnot : ¬ (m.remaining - Second ≤ 0) := by omega
  simp [Update, hrun, hpos, wrapInt64_sub_second hpos hmax, hnot]

/-- The tick branch of `Update` when the timer is running and the decrement
reaches zero. -/
theorem Update_tick_running_le (m : Model) (hrun : m.running = true)
    (hpos : 0 < m.remaining) (hle : m.remaining ≤ Second) :
    Update m Msg.TickMsg =
      ⟨switchPhase { m with remaining := 0, running := false }, Cmd.tickCmd,
        [{ m with remaining := 0, running := false }]⟩ := by
  have hmax : m.remaining ≤ maxInt64 := by unfold Second at hle; unfold maxInt64; omega
  have hz : m.remaining - Second ≤ 0 := by omega
  simp [Update, hrun, hpos, wrapInt64_sub_second hpos hmax, hz]

/-- The tick branch of `Update` when the guard `m.running && m.remaining > 0`
fails. -/
theorem Update_tick_idle (m : Model) (h : ¬ (m.running = true ∧ m.remaining > 0)) :
    Update m Msg.TickMsg = ⟨m, Cmd.tickCmd, []⟩ := by
  simp only [Update, if_neg h]

theorem switchPhase_eq (m : Model) :
    switchPhase m =
      { m with
        state := m.state.other
        remaining := m.lengthOf m.state.other
        totalDuration := m.lengthOf m.state.other
        running := false } := by
  cases m with
  | mk wd bd rem st rn tot nm =>
    cases st <;> simp [switchPhase, TimerState.other, Model.lengthOf]

theorem run_nil (m : Model) : run m [] = m := rfl

theorem run_cons (m : Model) (msg : Msg) (msgs : List Msg) :
    run m (msg :: msgs) = run (Update m msg).model msgs := rfl

/-- A property kept by every `Update` holds after any message sequence. -/
theorem run_preserves (P : Model → Prop)
    (hstep : ∀ m msg, P m → P (Update m msg).model)
    (m : Model) (msgs : List Msg) (h : P m) : P (run m msgs) := by
  induction msgs generalizing m with
  | nil => simpa [run_nil] using h
  | cons msg rest ih =>
    rw [run_cons]
    exact ih _ (hstep m msg h)

theorem PhaseInv_NewModel (w b : Int) (mode : NotifyMode) : PhaseInv (NewModel w b mode) := by
  simp [PhaseInv, NewModel, Model.lengthOf]

theorem PhaseInv_switchPhase (m : Model) : PhaseInv (switchPhase m) := by
  rw [switchPhase_eq]
  cases h : m.state <;> simp [PhaseInv, Model.lengthOf, TimerState.other]

theorem PhaseInv_Update (m : Model) (msg : Msg) (h : PhaseInv m) :
    PhaseInv (Update m msg).model := by
  cases msg with
  | KeyMsg key =>
    simp only [Update]
    split_ifs
    · exact h
    · exact h
    · exact PhaseInv_switchPhase m
    · exact h
    · exact h
  | TickMsg =>
    simp only [Update]
    split_ifs
    · exact PhaseInv_switchPhase _
    · exact h
    · exact h
  | Other => exact h

theorem PhaseInv_run (w b : Int) (mode : NotifyMode) (msgs : List Msg) :
    PhaseInv (run (NewModel w b mode) msgs) :=
  run_preserves PhaseInv PhaseInv_Update _ msgs (PhaseInv_NewModel w b mode)

theorem BoundsInv_NewModel (w b : Int) (mode : NotifyMode)
    (hw : 0 ≤ w) (hb : 0 ≤ b) (hwo : w * Minute ≤ maxInt64) (hbo : b * Minute ≤ maxInt64) :
    BoundsInv (NewModel w b mode) := by
  have hw0 : 0 ≤ w * Minute := Int.mul_nonneg hw (by unfold Minute; omega)
  have hb0 : 0 ≤ b * Minute := Int.mul_nonneg hb (by unfold Minute; omega)
  have hmin : minInt64 ≤ 0 := by unfold minInt64; omega
  have ew : wrapInt64 (w * Minute) = w * Minute :=
    wrapInt64_eq_self (le_trans hmin hw0) hwo
  have eb : wrapInt64 (b * Minute) = b * Minute :=
    wrapInt64_eq_self (le_trans hmin hb0) hbo
  simp only [BoundsInv, PhaseInv, NewModel, Model.lengthOf, ew, eb]
  exact ⟨hw0, hwo, hb0, hbo, trivial, hw0, le_refl _⟩

theorem BoundsInv_switchPhase (m : Model)
    (h : 0 ≤ m.workDuration ∧ m.workDuration ≤ maxInt64 ∧
      0 ≤ m.breakDuration ∧ m.breakDuration ≤ maxInt64) :
    BoundsInv (switchPhase m) := by
  obtain ⟨h1, h2, h3, h4⟩ := h
  rw [switchPhase_eq]
  cases hs : m.state
  · exact ⟨h1, h2, h3, h4, rfl, h3, le_refl _⟩
  · exact ⟨h1, h2, h3, h4, rfl, h1, le_refl _⟩

theorem BoundsInv_Update (m : Model) (msg : Msg) (h : BoundsInv m) :
    BoundsInv (Update m msg).model := by
  have hcfg : 0 ≤ m.workDuration ∧ m.workDuration ≤ maxInt64 ∧
      0 ≤ m.breakDuration ∧ m.breakDuration ≤ maxInt64 := ⟨h.1, h.2.1, h.2.2.1, h.2.2.2.1⟩
  obtain ⟨h1, h2, h3, h4, hph, hlo, hhi⟩ := h
  have htot : m.totalDuration ≤ maxInt64 := by
    unfold PhaseInv at hph
    rw [hph]
    cases m.state <;> simpa [Model.lengthOf]
  cases msg with
  | KeyMsg key =>
    simp only [Update]
    split_ifs
    · exact ⟨h1, h2, h3, h4, hph, hlo, hhi⟩
    · exact ⟨h1, h2, h3, h4, hph, hlo, hhi⟩
    · exact BoundsInv_switchPhase m hcfg
    · exact ⟨h1, h2, h3, h4, hph, le_trans hlo hhi, le_refl _⟩
    · exact ⟨h1, h2, h3, h4, hph, hlo, hhi⟩
  | TickMsg =>
    by_cases hg : m.running = true ∧ m.remaining > 0
    · obtain ⟨hrun, hpos⟩ := hg
      by_cases hle : m.remaining ≤ Second
      · rw [Update_tick_running_le m hrun hpos hle]
        exact BoundsInv_switchPhase _ hcfg
      · have hgt : Second < m.remaining := lt_of_not_ge hle
        rw [Update_tick_running_gt m hrun hgt (le_trans hhi htot)]
        refine ⟨h1, h2, h3, h4, hph, ?_, ?_⟩
        · show 0 ≤ m.remaining - Second
          omega
        · show m.remaining - Second ≤ m.totalDuration
          unfold Second
          omega
    · rw [Update_tick_idle m hg]
      exact ⟨h1, h2, h3, h4, hph, hlo, hhi⟩
  | Other => exact ⟨h1, h2, h3, h4, hph, hlo, hhi⟩

/-! ## The claims -/

/-- C1: for `NewModel w b mode` with `w ≥ 0`, `b ≥ 0` and both minute values
small enough that the conversion to nanoseconds fits in `int64`, the state after
any finite sequence of messages passed through `Update` satisfies
`0 ≤ remaining ≤ totalDuration`. -/
theorem remaining_bounds_reachable (w b : Int) (mode : NotifyMode) (msgs : List Msg)
    (hw : 0 ≤ w) (hb : 0 ≤ b) (hwo : w * Minute ≤ maxInt64) (hbo : b * Minute ≤ maxInt64) :
    0 ≤ (run (NewModel w b mode) msgs).remaining ∧
      (run (NewModel w b mode) msgs).remaining ≤ (run (NewModel w b mode) msgs).totalDuration := by
  have h := run_preserves BoundsInv BoundsInv_Update _ msgs
    (BoundsInv_NewModel w b mode hw hb hwo hbo)
  exact ⟨h.2.2.2.2.2.1, h.2.2.2.2.2.2⟩

theorem remaining_bounds_reachable_witness :
    (0 : Int) ≤ 25 ∧ (0 : Int) ≤ 5 ∧ 25 * Minute ≤ maxInt64 ∧ 5 * Minute ≤ maxInt64 ∧
      0 ≤ (run (NewModel 25 5 NotifyBoth)
          [Msg.KeyMsg "g", Msg.TickMsg, Msg.KeyMsg "s", Msg.KeyMsg " ", Msg.TickMsg]).remaining ∧
      (run (NewModel 25 5 NotifyBoth)
          [Msg.KeyMsg "g", Msg.TickMsg, Msg.KeyMsg "s", Msg.KeyMsg " ", Msg.TickMsg]).remaining ≤
        (run (NewModel 25 5 NotifyBoth)
          [Msg.KeyMsg "g", Msg.TickMsg, Msg.KeyMsg "s", Msg.KeyMsg " ", Msg.TickMsg]).totalDuration :=
  ⟨by decide, by decide, by decide, by decide,
    remaining_bounds_reachable 25 5 NotifyBoth _ (by decide) (by decide) (by decide) (by decide)⟩

/-- C2: after any finite sequence of messages applied to `NewModel w b mode`,
`totalDuration` equals `workDuration` in `WorkState` and `breakDuration` in
`BreakState`. -/
theorem total_matches_phase_reachable (w b : Int) (mode : NotifyMode) (msgs : List Msg) :
    ((run (NewModel w b mode) msgs).state = WorkState ∧
        (run (NewModel w b mode) msgs).totalDuration =
          (run (NewModel w b mode) msgs).workDuration) ∨
      ((run (NewModel w b mode) msgs).state = BreakState ∧
        (run (NewModel w b mode) msgs).totalDuration =
          (run (NewModel w b mode) msgs).breakDuration) := by
  have h := PhaseInv_run w b mode msgs
  unfold PhaseInv at h
  cases hs : (run (NewModel w b mode) msgs).state
  · left
    rw [hs] at h
    exact ⟨rfl, h⟩
  · right
    rw [hs] at h
    exact ⟨rfl, h⟩

/-- C3: a tick on a running state with `0 < remaining ≤ 1s` returns the other
phase, with `remaining = totalDuration =` the configured length of that new
phase and `running = false`; the configuration fields are kept. -/
theorem tick_expiry_switches_phase (m : Model) (hrun : m.running = true)
    (hpos : 0 < m.remaining) (hle : m.remaining ≤ Second) :
    (Update m Msg.TickMsg).model =
      { workDuration := m.workDuration
        breakDuration := m.breakDuration
        remaining := m.lengthOf m.state.other
        state := m.state.other
        running := false
        totalDuration := m.lengthOf m.state.other
        notifyMode := m.notifyMode } := by
  rw [Update_tick_running_le m hrun hpos hle, switchPhase_eq]
  cases m with
  | mk wd bd rem st rn tot nm => cases st <;> rfl

theorem tick_expiry_switches_phase_witness :
    (Update
        { workDuration := 25 * Minute, breakDuration := 5 * Minute, remaining := Second,
          state := WorkState, running := true, totalDuration := 25 * Minute,
          notifyMode := NotifyNone } Msg.TickMsg).model =
      { workDuration := 25 * Minute, breakDuration := 5 * Minute, remaining := 5 * Minute,
        state := BreakState, running := false, totalDuration := 5 * Minute,
        notifyMode := NotifyNone } :=
  tick_expiry_switches_phase
    { workDuration := 25 * Minute, breakDuration := 5 * Minute, remaining := Second,
      state := WorkState, running := true, totalDuration := 25 * Minute,
      notifyMode := NotifyNone } rfl (by decide) (by decide)

/-- C4: a tick on a running state whose `remaining` (an `int64`) exceeds one
second lowers `remaining` by exactly one second and keeps every other field. -/
theorem tick_decrements_one_second (m : Model) (hrun : m.running = true)
    (hgt : Second < m.remaining) (hmax : m.remaining ≤ maxInt64) :
    (Update m Msg.TickMsg).model =
      { workDuration := m.workDuration
        breakDuration := m.breakDuration
        remaining := m.remaining - Second
        state := m.state
        running := m.running
        totalDuration := m.totalDuration
        notifyMode := m.notifyMode } := by
  rw [Update_tick_running_gt m hrun hgt hmax]

theorem tick_decrements_one_second_witness :
    (Update
        { workDuration := 25 * Minute, breakDuration := 5 * Minute, remaining := 10 * Second,
          state := WorkState, running := true, totalDuration := 25 * Minute,
          notifyMode := NotifyNone } Msg.TickMsg).model =
      { workDuration := 25 * Minute, breakDuration := 5 * Minute, remaining := 9 * Second,
        state := WorkState, running := true, totalDuration := 25 * Minute,
        notifyMode := NotifyNone } :=
  tick_decrements_one_second
    { workDuration := 25 * Minute, breakDuration := 5 * Minute, remaining := 10 * Second,
      state := WorkState, running := true, totalDuration := 25 * Minute,
      notifyMode := NotifyNone } rfl (by decide) (by decide)

/-- C5: a tick on a paused state returns the input state unchanged in every
field, whatever `remaining` is. -/
theorem tick_paused_unchanged (m : Model) (hrun : m.running = false) :
    (Update m Msg.TickMsg).model = m := by
  rw [Update_tick_idle m (by simp [hrun])]

theorem tick_paused_unchanged_witness :
    (Update
        { workDuration := 25 * Minute, breakDuration := 5 * Minute, remaining := 10 * Second,
          state := WorkState, running := false, totalDuration := 25 * Minute,
          notifyMode := NotifyNone } Msg.TickMsg).model =
      { workDuration := 25 * Minute, breakDuration := 5 * Minute, remaining := 10 * Second,
        state := WorkState, running := false, totalDuration := 25 * Minute,
        notifyMode := NotifyNone } :=
  tick_paused_unchanged
    { workDuration := 25 * Minute, breakDuration := 5 * Minute, remaining := 10 * Second,
      state := WorkState, running := false, totalDuration := 25 * Minute,
      notifyMode := NotifyNone } rfl

/-- C6: for every state, `switchPhase` and the skip key `s` return the other
phase, paused, with `remaining = totalDuration =` the configured length of the
phase entered (`breakDuration` entering Break, `workDuration` entering Work). -/
theorem skip_switches_phase (m : Model) :
    switchPhase m =
        { workDuration := m.workDuration
          breakDuration := m.breakDuration
          remaining := (if m.state = WorkState then m.breakDuration else m.workDuration)
          state := (if m.state = WorkState then BreakState else WorkState)
          running := false
          totalDuration := (if m.state = WorkState then m.breakDuration else m.workDuration)
          notifyMode := m.notifyMode } ∧
      (Update m (Msg.KeyMsg "s")).model = switchPhase m := by
  constructor
  · cases m with
    | mk wd bd rem st rn tot nm => cases st <;> rfl
  · simp [Update]

/-- C7: in every state reached from `NewModel` by messages, the reset key `r`
sets `remaining` to the configured length of the current phase and
`running` to false, and keeps the phase and `totalDuration`. -/
theorem reset_restores_phase_length (w b : Int) (mode : NotifyMode) (msgs : List Msg) :
    (Update (run (NewModel w b mode) msgs) (Msg.KeyMsg "r")).model =
      { workDuration := (run (NewModel w b mode) msgs).workDuration
        breakDuration := (run (NewModel w b mode) msgs).breakDuration
        remaining :=
          (if (run (NewModel w b mode) msgs).state = WorkState
            then (run (NewModel w b mode) msgs).workDuration
            else (run (NewModel w b mode) msgs).breakDuration)
        state := (run (NewModel w b mode) msgs).state
        running := false
        totalDuration := (run (NewModel w b mode) msgs).totalDuration
        notifyMode := (run (NewModel w b mode) msgs).notifyMode } := by
  have h := PhaseInv_run w b mode msgs
  generalize run (NewModel w b mode) msgs = m at h ⊢
  unfold PhaseInv at h
  cases m with
  | mk wd bd rem st rn tot nm =>
    cases st <;> simp_all [Update, Model.lengthOf]

/-- C8: the toggle keys `g` and space behave identically; one press flips
`running` and keeps every other field; two presses in succession (in any
combination of the two keys) return the original state. -/
theorem toggle_flips_running (m : Model) :
    Update m (Msg.KeyMsg "g") = Update m (Msg.KeyMsg " ") ∧
      (Update m (Msg.KeyMsg "g")).model =
        { workDuration := m.workDuration
          breakDuration := m.breakDuration
          remaining := m.remaining
          state := m.state
          running := !m.running
          totalDuration := m.totalDuration
          notifyMode := m.notifyMode } ∧
      (Update (Update m (Msg.KeyMsg "g")).model (Msg.KeyMsg "g")).model = m ∧
      (Update (Update m (Msg.KeyMsg "g")).model (Msg.KeyMsg " ")).model = m ∧
      (Update (Update m (Msg.KeyMsg " ")).model (Msg.KeyMsg "g")).model = m ∧
      (Update (Update m (Msg.KeyMsg " ")).model (Msg.KeyMsg " ")).model = m := by
  cases m with
  | mk wd bd rem st rn tot nm => simp [Update]

/-- C9: for every state whose `remaining` is an `int64` and every message,
`Update` calls `sendNotification` exactly once if the message is a tick, the
timer is running and `0 < remaining ≤ 1s`, and not at all otherwise. -/
theorem notification_call_count (m : Model) (msg : Msg) (hmax : m.remaining ≤ maxInt64) :
    (Update m msg).notifications.length =
      if msg = Msg.TickMsg ∧ m.running = true ∧ 0 < m.remaining ∧ m.remaining ≤ Second
      then 1 else 0 := by
  cases msg with
  | KeyMsg key =>
    simp only [Update]
    split_ifs <;> simp_all
  | TickMsg =>
    by_cases hg : m.running = true ∧ m.remaining > 0
    · obtain ⟨hrun, hpos⟩ := hg
      by_cases hle : m.remaining ≤ Second
      · rw [Update_tick_running_le m hrun hpos hle]
        simp [hrun, hpos, hle]
      · rw [Update_tick_running_gt m hrun (lt_of_not_ge hle) hmax]
        simp [hle]
    · rw [Update_tick_idle m hg]
      have : ¬ (m.running = true ∧ 0 < m.remaining ∧ m.remaining ≤ Second) :=
        fun h => hg ⟨h.1, h.2.1⟩
      simp [this]
  | Other => simp [Update]

theorem notification_call_count_witness :
    (Update
        { workDuration := 25 * Minute, breakDuration := 5 * Minute, remaining := Second,
          state := WorkState, running := true, totalDuration := 25 * Minute,
          notifyMode := NotifyBoth } Msg.TickMsg).notifications.length = 1 :=
  notification_call_count
    { workDuration := 25 * Minute, breakDuration := 5 * Minute, remaining := Second,
      state := WorkState, running := true, totalDuration := 25 * Minute,
      notifyMode := NotifyBoth } Msg.TickMsg (by decide)

/-- C10: on natural expiry (a tick on a running state with
`0 < remaining ≤ 1s`) `sendNotification` is called once, on a receiver whose
`state` is the phase that just ended while the returned model is in the other
phase.  The actions performed are: nothing in mode `none`; in mode `visual` one
desktop notification titled `Pomodoro Timer` whose message is the work-complete
text when Work ended and the break-over text when Break ended; in mode `audio`
only `playSound`; in mode `both` the notification followed by `playSound`. -/
theorem expiry_notifies_ended_phase (m : Model) (hrun : m.running = true)
    (hpos : 0 < m.remaining) (hle : m.remaining ≤ Second) :
    (Update m Msg.TickMsg).notifications =
        [{ workDuration := m.workDuration
           breakDuration := m.breakDuration
           remaining := 0
           state := m.state
           running := false
           totalDuration := m.totalDuration
           notifyMode := m.notifyMode }] ∧
      (Update m Msg.TickMsg).model.state = m.state.other ∧
      actions (Update m Msg.TickMsg) =
        (if m.notifyMode = "none" then []
         else if m.notifyMode = "visual" then
           [Action.Notify "Pomodoro Timer"
              (if m.state = WorkState then "Work session complete! Time for a break."
               else "Break is over! Ready to work?") ""]
         else if m.notifyMode = "audio" then [Action.playSound]
         else if m.notifyMode = "both" then
           [Action.Notify "Pomodoro Timer"
              (if m.state = WorkState then "Work session complete! Time for a break."
               else "Break is over! Ready to work?") "",
            Action.playSound]
         else []) := by
  rw [Update_tick_running_le m hrun hpos hle, switchPhase_eq]
  refine ⟨rfl, rfl, ?_⟩
  simp only [actions, List.flatMap_cons, List.flatMap_nil, List.append_nil, sendNotification,
    NotifyNone, NotifyVisual, NotifyAudio, NotifyBoth]

theorem expiry_notifies_ended_phase_witness :
    (Update
        { workDuration := 25 * Minute, breakDuration := 5 * Minute, remaining := Second,
          state := BreakState, running := true, totalDuration := 5 * Minute,
          notifyMode := NotifyBoth } Msg.TickMsg).model.state = WorkState ∧
      actions (Update
        { workDuration := 25 * Minute, breakDuration := 5 * Minute, remaining := Second,
          state := BreakState, running := true, totalDuration := 5 * Minute,
          notifyMode := NotifyBoth } Msg.TickMsg) =
        [Action.Notify "Pomodoro Timer" "Break is over! Ready to work?" "", Action.playSound] :=
  (expiry_notifies_ended_phase
    { workDuration := 25 * Minute, breakDuration := 5 * Minute, remaining := Second,
      state := BreakState, running := true, totalDuration := 5 * Minute,
      notifyMode := NotifyBoth } rfl (by decide) (by decide)).2

theorem NewModel_eq_of_fits (w b : Int) (mode : NotifyMode)
    (hwlo : minInt64 ≤ w * Minute) (hwhi : w * Minute ≤ maxInt64)
    (hblo : minInt64 ≤ b * Minute) (hbhi : b * Minute ≤ maxInt64) :
    NewModel w b mode =
      { workDuration := w * Minute
        breakDuration := b * Minute
        remaining := w * Minute
        state := WorkState
        running := false
        totalDuration := w * Minute
        notifyMode := mode } := by
  simp only [NewModel, wrapInt64_eq_self hwlo hwhi, wrapInt64_eq_self hblo hbhi]

/-- C11 as stated fails: `NewModel 153722868 5 both` does not have
`remaining = 153722868` minutes, the product wraps in `int64` to a negative
duration. -/
theorem NewModel_minutes_overflow :
    (NewModel 153722868 5 NotifyBoth).remaining = -9223371993709551616 ∧
      (NewModel 153722868 5 NotifyBoth).remaining ≠ 153722868 * Minute := by
  decide

/-- C11 (amended): for minute values `w` and `b` whose nanosecond values
`w * Minute` and `b * Minute` fit in `int64`, and every mode, `NewModel w b mode`
is the Work-Paused state with `remaining = totalDuration = workDuration =`
`w` minutes, `breakDuration = b` minutes and `notifyMode = mode`. -/
theorem NewModel_initial_state (w b : Int) (mode : NotifyMode)
    (hwlo : minInt64 ≤ w * Minute) (hwhi : w * Minute ≤ maxInt64)
    (hblo : minInt64 ≤ b * Minute) (hbhi : b * Minute ≤ maxInt64) :
    NewModel w b mode =
      { workDuration := w * Minute
        breakDuration := b * Minute
        remaining := w * Minute
        state := WorkState
        running := false
        totalDuration := w * Minute
        notifyMode := mode } :=
  NewModel_eq_of_fits w b mode hwlo hwhi hblo hbhi

theorem NewModel_initial_state_witness :
    NewModel 25 5 NotifyBoth =
      { workDuration := 25 * Minute
        breakDuration := 5 * Minute
        remaining := 25 * Minute
        state := WorkState
        running := false
        totalDuration := 25 * Minute
        notifyMode := NotifyBoth } :=
  NewModel_initial_state 25 5 NotifyBoth (by decide) (by decide) (by decide) (by decide)

/-- C12: for every state and every message, `Update` returns a model with the
same `workDuration`, `breakDuration` and `notifyMode`. -/
theorem Update_keeps_configuration (m : Model) (msg : Msg) :
    (Update m msg).model.workDuration = m.workDuration ∧
      (Update m msg).model.breakDuration = m.breakDuration ∧
      (Update m msg).model.notifyMode = m.notifyMode := by
  cases msg with
  | KeyMsg key =>
    simp only [Update]
    split_ifs
    · exact ⟨rfl, rfl, rfl⟩
    · exact ⟨rfl, rfl, rfl⟩
    · rw [switchPhase_eq]
      exact ⟨rfl, rfl, rfl⟩
    · exact ⟨rfl, rfl, rfl⟩
    · exact ⟨rfl, rfl, rfl⟩
  | TickMsg =>
    simp only [Update]
    split_ifs
    · rw [switchPhase_eq]
      exact ⟨rfl, rfl, rfl⟩
    · exact ⟨rfl, rfl, rfl⟩
    · exact ⟨rfl, rfl, rfl⟩
  | Other => exact ⟨rfl, rfl, rfl⟩

/-- C13: the command returned by `Update` is a function of the message alone:
`tickCmd` for every tick, `tea.Quit` for the keys `q` and `ctrl+c`, and `nil`
for every other key; the two quit keys return the state unchanged. -/
theorem Update_command (m : Model) (msg : Msg) :
    (Update m msg).cmd =
        (match msg with
         | Msg.TickMsg => Cmd.tickCmd
         | Msg.KeyMsg key => if key = "q" ∨ key = "ctrl+c" then Cmd.Quit else Cmd.nil
         | Msg.Other => Cmd.nil) ∧
      (Update m (Msg.KeyMsg "q")).model = m ∧
      (Update m (Msg.KeyMsg "ctrl+c")).model = m ∧
      (Update m (Msg.KeyMsg "g")).cmd = Cmd.nil ∧
      (Update m (Msg.KeyMsg " ")).cmd = Cmd.nil ∧
      (Update m (Msg.KeyMsg "s")).cmd = Cmd.nil ∧
      (Update m (Msg.KeyMsg "r")).cmd = Cmd.nil := by
  refine ⟨?_, by simp [Update], by simp [Update], by simp [Update], by simp [Update],
    by simp [Update], by simp [Update]⟩
  cases msg with
  | KeyMsg key =>
    simp only [Update]
    split_ifs <;> rfl
  | TickMsg =>
    simp only [Update]
    split_ifs <;> rfl
  | Other => rfl

/-- C16: with `--work -5` and no positional argument `main` builds the timer
from the work minute value `-5`, and with `--break 0` from the break minute
value `0`: flag values are not checked for positivity, positional values are. -/
theorem main_nonpositive_flag_minutes :
    mainMinutes (-5) 5 [] = (-5, 5) ∧
      main (-5) 5 "both" [] = MainResult.program (NewModel (-5) 5 NotifyBoth) ∧
      (NewModel (-5) 5 NotifyBoth).remaining = -300000000000 ∧
      mainMinutes 25 0 ["30"] = (30, 0) := by
  decide

/-- C17: with no positional argument the flag values are used; with exactly
one, the work minutes become its value when it parses as an integer `> 0` and
stay the flag value otherwise, the break minutes stay the flag value; with two,
the first overrides the work minutes and the second the break minutes under the
same rule, each independently of the other. -/
theorem positional_arguments_override (workFlag breakFlag : Int) (a0 a1 : String) :
    mainMinutes workFlag breakFlag [] = (workFlag, breakFlag) ∧
      mainMinutes workFlag breakFlag [a0] =
        ((match Atoi a0 with
          | some w => if 0 < w then w else workFlag
          | none => workFlag), breakFlag) ∧
      mainMinutes workFlag breakFlag [a0, a1] =
        ((match Atoi a0 with
          | some w => if 0 < w then w else workFlag
          | none => workFlag),
         (match Atoi a1 with
          | some b => if 0 < b then b else breakFlag
          | none => breakFlag)) := by
  refine ⟨rfl, ?_, ?_⟩
  · simp only [mainMinutes, positionalOverride, gt_iff_lt]
  · simp only [mainMinutes, positionalOverride, gt_iff_lt]

/-- C18: `main` accepts the `--notify` value exactly when it is one of `none`,
`visual`, `audio`, `both`; then the model it builds has that string as
`notifyMode`.  For every other string it prints the diagnostic and exits with
code 1, and no model is built. -/
theorem main_notify_validation (workFlag breakFlag : Int) (notifyFlag : String)
    (args : List String) :
    main workFlag breakFlag notifyFlag args =
      if notifyFlag = "none" ∨ notifyFlag = "visual" ∨ notifyFlag = "audio" ∨
          notifyFlag = "both" then
        MainResult.program
          { workDuration := wrapInt64 ((mainMinutes workFlag breakFlag args).1 * Minute)
            breakDuration := wrapInt64 ((mainMinutes workFlag breakFlag args).2 * Minute)
            remaining := wrapInt64 ((mainMinutes workFlag breakFlag args).1 * Minute)
            state := WorkState
            running := false
            totalDuration := wrapInt64 ((mainMinutes workFlag breakFlag args).1 * Minute)
            notifyMode := notifyFlag }
      else
        MainResult.exit 1
          ("Invalid notify mode: " ++ notifyFlag ++ " (use: none, visual, audio, both)\n") := by
  simp only [main, NotifyNone, NotifyVisual, NotifyAudio, NotifyBoth]
  split_ifs <;> rfl

/-! ### Countdown -/

theorem Second_dvd_Minute (w : Int) : Second ∣ w * Minute :=
  ⟨w * 60, by unfold Second Minute; ring⟩

theorem PosInv_NewModel (w b : Int) (mode : NotifyMode)
    (hw : 0 < w) (hb : 0 < b) (hwo : w * Minute ≤ maxInt64) (hbo : b * Minute ≤ maxInt64) :
    PosInv (NewModel w b mode) := by
  have hw0 : 0 < w * Minute := Int.mul_pos hw (by unfold Minute; omega)
  have hb0 : 0 < b * Minute := Int.mul_pos hb (by unfold Minute; omega)
  have hmin : minInt64 ≤ 0 := by unfold minInt64; omega
  rw [NewModel_eq_of_fits w b mode (le_trans hmin (le_of_lt hw0)) hwo
    (le_trans hmin (le_of_lt hb0)) hbo]
  exact ⟨⟨hw0, hwo, Second_dvd_Minute w⟩, ⟨hb0, hbo, Second_dvd_Minute b⟩, rfl, hw0,
    le_refl _, Second_dvd_Minute w⟩

theorem PosInv_switchPhase (m : Model)
    (hw : 0 < m.workDuration ∧ m.workDuration ≤ maxInt64 ∧ Second ∣ m.workDuration)
    (hb : 0 < m.breakDuration ∧ m.breakDuration ≤ maxInt64 ∧ Second ∣ m.breakDuration) :
    PosInv (switchPhase m) := by
  rw [switchPhase_eq]
  cases hs : m.state
  · exact ⟨hw, hb, rfl, hb.1, le_refl _, hb.2.2⟩
  · exact ⟨hw, hb, rfl, hw.1, le_refl _, hw.2.2⟩

theorem PosInv_Update (m : Model) (msg : Msg) (h : PosInv m) :
    PosInv (Update m msg).model := by
  obtain ⟨hw, hb, hph, hpos, hle, hdvd⟩ := h
  have htot : m.totalDuration ≤ maxInt64 := by
    unfold PhaseInv at hph
    rw [hph]
    cases m.state
    · exact hw.2.1
    · exact hb.2.1
  have htotdvd : Second ∣ m.totalDuration := by
    unfold PhaseInv at hph
    rw [hph]
    cases m.state
    · exact hw.2.2
    · exact hb.2.2
  cases msg with
  | KeyMsg key =>
    simp only [Update]
    split_ifs
    · exact ⟨hw, hb, hph, hpos, hle, hdvd⟩
    · exact ⟨hw, hb, hph, hpos, hle, hdvd⟩
    · exact PosInv_switchPhase m hw hb
    · exact ⟨hw, hb, hph, lt_of_lt_of_le hpos hle, le_refl _, htotdvd⟩
    · exact ⟨hw, hb, hph, hpos, hle, hdvd⟩
  | TickMsg =>
    by_cases hrun : m.running = true
    · by_cases hsec : m.remaining ≤ Second
      · rw [Update_tick_running_le m hrun hpos hsec]
        exact PosInv_switchPhase _ hw hb
      · have hgt : Second < m.remaining := lt_of_not_ge hsec
        rw [Update_tick_running_gt m hrun hgt (le_trans hle htot)]
        refine ⟨hw, hb, hph, ?_, ?_, ?_⟩
        · show 0 < m.remaining - Second
          omega
        · show m.remaining - Second ≤ m.totalDuration
          unfold Second
          omega
        · show Second ∣ m.remaining - Second
          exact Int.dvd_sub hdvd (dvd_refl _)
    · rw [Update_tick_idle m (fun hg => hrun hg.1)]
      exact ⟨hw, hb, hph, hpos, hle, hdvd⟩
  | Other => exact ⟨hw, hb, hph, hpos, hle, hdvd⟩

/-- C19 as stated fails: with `w = 2 ^ 54 > 0` and `b = 5 > 0` the conversion of
`w` minutes to nanoseconds wraps to `0`, so the state `Update` returns after the
toggle key has `remaining = 0`; with `w = 153722868` it wraps to a negative
value. -/
theorem remaining_zero_after_overflow :
    (0 : Int) < 18014398509481984 ∧ (0 : Int) < 5 ∧
      (Update (NewModel 18014398509481984 5 NotifyBoth) (Msg.KeyMsg "g")).model.remaining = 0 ∧
      (Update (NewModel 153722868 5 NotifyBoth) (Msg.KeyMsg "g")).model.remaining < 0 := by
  decide

/-- C19 (amended): for `NewModel w b mode` with `w > 0`, `b > 0` and both minute
values small enough that the conversion to nanoseconds fits in `int64`, the
state after any finite sequence of messages has `remaining` a positive whole
number of seconds; in particular `remaining` is never `0`. -/
theorem remaining_positive_reachable (w b : Int) (mode : NotifyMode) (msgs : List Msg)
    (hw : 0 < w) (hb : 0 < b) (hwo : w * Minute ≤ maxInt64) (hbo : b * Minute ≤ maxInt64) :
    0 < (run (NewModel w b mode) msgs).remaining ∧
      (∃ s : Int, 0 < s ∧ (run (NewModel w b mode) msgs).remaining = s * Second) ∧
      (run (NewModel w b mode) msgs).remaining ≠ 0 := by
  have h := run_preserves PosInv PosInv_Update _ msgs (PosInv_NewModel w b mode hw hb hwo hbo)
  obtain ⟨-, -, -, hpos, -, s, hs⟩ := h
  refine ⟨hpos, ⟨s, ?_, by rw [hs]; ring⟩, ne_of_gt hpos⟩
  rw [hs] at hpos
  unfold Second at hpos
  omega

theorem remaining_positive_reachable_witness :
    0 < (run (NewModel 1 1 NotifyBoth)
        (Msg.KeyMsg "g" :: List.replicate 60 Msg.TickMsg)).remaining ∧
      (∃ s : Int, 0 < s ∧
        (run (NewModel 1 1 NotifyBoth)
          (Msg.KeyMsg "g" :: List.replicate 60 Msg.TickMsg)).remaining = s * Second) ∧
      (run (NewModel 1 1 NotifyBoth)
        (Msg.KeyMsg "g" :: List.replicate 60 Msg.TickMsg)).remaining ≠ 0 :=
  remaining_positive_reachable 1 1 NotifyBoth _ (by decide) (by decide) (by decide) (by decide)

theorem run_append (m : Model) (xs ys : List Msg) :
    run m (xs ++ ys) = run (run m xs) ys := by
  simp [run, List.foldl_append]

theorem runNotifications_append (m : Model) (xs ys : List Msg) :
    runNotifications m (xs ++ ys) = runNotifications m xs ++ runNotifications (run m xs) ys := by
  induction xs generalizing m with
  | nil => rfl
  | cons x rest ih =>
    show (Update m x).notifications ++ runNotifications (Update m x).model (rest ++ ys) =
      (Update m x).notifications ++ runNotifications (Update m x).model rest ++
        runNotifications (run (Update m x).model rest) ys
    rw [ih, List.append_assoc]

/-- While more than `k` seconds remain, `k` ticks on a running timer lower
`remaining` by `k` seconds, change nothing else and call no notification. -/
theorem run_ticks (k : Nat) (m : Model) (hrun : m.running = true)
    (hk : (k : Int) * Second < m.remaining) (hmax : m.remaining ≤ maxInt64) :
    run m (List.replicate k Msg.TickMsg) = { m with remaining := m.remaining - k * Second } ∧
      runNotifications m (List.replicate k Msg.TickMsg) = [] := by
  induction k generalizing m with
  | zero => simp [run_nil, runNotifications]
  | succ n ih =>
    have hgt : Second < m.remaining := by
      push_cast at hk
      have : (0 : Int) ≤ n * Second := by unfold Second; positivity
      linarith
    have hstep := Update_tick_running_gt m hrun hgt hmax
    have hk2 : (n : Int) * Second < m.remaining - Second := by
      push_cast at hk
      linarith
    have hmax2 : m.remaining - Second ≤ maxInt64 := by unfold Second; omega
    obtain ⟨h1, h2⟩ := ih { m with remaining := m.remaining - Second } hrun hk2 hmax2
    simp only [List.replicate_succ, run_cons, runNotifications, hstep, h1, h2]
    refine ⟨?_, rfl⟩
    simp only [Model.mk.injEq, and_true, true_and]
    push_cast
    ring

/-- C20: for `w > 0` and `b` whose nanosecond values fit in `int64`, starting
from `NewModel w b mode` and pressing a toggle key (`g` or space) once: after
`k < 60 * w` ticks the state is Work, running, with
`remaining = w` minutes `- k` seconds; after exactly `60 * w` ticks the state is
Break, paused, with `remaining = totalDuration = b` minutes, and
`sendNotification` has been called exactly once over the whole run. -/
theorem full_countdown (w b : Int) (mode : NotifyMode) (toggle : String) (k : Nat)
    (hw : 0 < w) (hwo : w * Minute ≤ maxInt64)
    (hblo : minInt64 ≤ b * Minute) (hbhi : b * Minute ≤ maxInt64)
    (htoggle : toggle = "g" ∨ toggle = " ") (hk : (k : Int) < 60 * w) :
    run (NewModel w b mode) (Msg.KeyMsg toggle :: List.replicate k Msg.TickMsg) =
        { workDuration := w * Minute
          breakDuration := b * Minute
          remaining := w * Minute - k * Second
          state := WorkState
          running := true
          totalDuration := w * Minute
          notifyMode := mode } ∧
      run (NewModel w b mode)
          (Msg.KeyMsg toggle :: List.replicate (60 * w).toNat Msg.TickMsg) =
        { workDuration := w * Minute
          breakDuration := b * Minute
          remaining := b * Minute
          state := BreakState
          running := false
          totalDuration := b * Minute
          notifyMode := mode } ∧
      (runNotifications (NewModel w b mode)
          (Msg.KeyMsg toggle :: List.replicate (60 * w).toNat Msg.TickMsg)).length = 1 := by
  have hw0 : 0 < w * Minute := Int.mul_pos hw (by unfold Minute; omega)
  have hmin : minInt64 ≤ 0 := by unfold minInt64; omega
  have hnew := NewModel_eq_of_fits w b mode (le_trans hmin (le_of_lt hw0)) hwo hblo hbhi
  have htog : Update (NewModel w b mode) (Msg.KeyMsg toggle) =
      ⟨{ workDuration := w * Minute, breakDuration := b * Minute, remaining := w * Minute,
         state := WorkState, running := true, totalDuration := w * Minute,
         notifyMode := mode }, Cmd.nil, []⟩ := by
    rw [hnew]
    rcases htoggle with h | h <;> subst h <;> simp [Update]
  have hMS : Minute = 60 * Second := by unfold Minute Second; norm_num
  refine ⟨?_, ?_, ?_⟩
  · rw [run_cons, htog]
    have hlt : (k : Int) * Second < w * Minute := by
      rw [hMS]
      have : (0 : Int) < Second := by unfold Second; omega
      nlinarith
    exact (run_ticks k _ rfl hlt hwo).1
  all_goals
    obtain ⟨n, hn⟩ : ∃ n : Nat, (60 * w).toNat = n + 1 := by
      refine ⟨(60 * w).toNat - 1, ?_⟩
      have : 0 < (60 * w).toNat := by
        rw [Int.lt_toNat]
        simpa using (by omega : 0 < 60 * w)
      omega
    have hcast : ((n : Int) + 1) = 60 * w := by
      have h1 : ((60 * w).toNat : Int) = 60 * w := Int.toNat_of_nonneg (by omega)
      rw [hn] at h1
      push_cast at h1
      exact h1
    have hlt : (n : Int) * Second < w * Minute := by
      rw [hMS]
      have : (0 : Int) < Second := by unfold Second; omega
      nlinarith
    have hticks := run_ticks n
      { workDuration := w * Minute, breakDuration := b * Minute, remaining := w * Minute,
        state := WorkState, running := true, totalDuration := w * Minute,
        notifyMode := mode } rfl hlt hwo
    have hrem : w * Minute - (n : Int) * Second = Second := by
      rw [hMS]
      have : w * (60 * Second) = (60 * w) * Second := by ring
      rw [this, ← hcast]
      ring
    have hmid : run (NewModel w b mode) (Msg.KeyMsg toggle :: List.replicate n Msg.TickMsg) =
        { workDuration := w * Minute, breakDuration := b * Minute, remaining := Second,
          state := WorkState, running := true, totalDuration := w * Minute,
          notifyMode := mode } := by
      rw [run_cons, htog]
      refine hticks.1.trans ?_
      show ({ workDuration := w * Minute, breakDuration := b * Minute,
              remaining := w * Minute - (n : Int) * Second, state := WorkState, running := true,
              totalDuration := w * Minute, notifyMode := mode } : Model) = _
      rw [hrem]
    have hmidN : runNotifications (NewModel w b mode)
        (Msg.KeyMsg toggle :: List.replicate n Msg.TickMsg) = [] := by
      show (Update (NewModel w b mode) (Msg.KeyMsg toggle)).notifications ++
        runNotifications (Update (NewModel w b mode) (Msg.KeyMsg toggle)).model
          (List.replicate n Msg.TickMsg) = []
      rw [htog, hticks.2]
      rfl
    have hlast := Update_tick_running_le
      { workDuration := w * Minute, breakDuration := b * Minute, remaining := Second,
        state := WorkState, running := true, totalDuration := w * Minute,
        notifyMode := mode } rfl (by show (0 : Int) < Second; unfold Second; omega) (le_refl _)
    rw [hn, List.replicate_succ', ← List.cons_append]
  · rw [run_append, hmid, run_cons, run_nil, hlast, switchPhase_eq]
    rfl
  · rw [runNotifications_append, hmidN, hmid]
    show ([] ++ ((Update _ Msg.TickMsg).notifications ++ [])).length = 1
    rw [hlast]
    rfl

theorem full_countdown_witness :
    run (NewModel 25 5 NotifyBoth) (Msg.KeyMsg "g" :: List.replicate 10 Msg.TickMsg) =
        { workDuration := 25 * Minute
          breakDuration := 5 * Minute
          remaining := 25 * Minute - (10 : Nat) * Second
          state := WorkState
          running := true
          totalDuration := 25 * Minute
          notifyMode := NotifyBoth } ∧
      run (NewModel 25 5 NotifyBoth)
          (Msg.KeyMsg "g" :: List.replicate (60 * 25 : Int).toNat Msg.TickMsg) =
        { workDuration := 25 * Minute
          breakDuration := 5 * Minute
          remaining := 5 * Minute
          state := BreakState
          running := false
          totalDuration := 5 * Minute
          notifyMode := NotifyBoth } ∧
      (runNotifications (NewModel 25 5 NotifyBoth)
          (Msg.KeyMsg "g" :: List.replicate (60 * 25 : Int).toNat Msg.TickMsg)).length = 1 :=
  full_countdown 25 5 NotifyBoth "g" 10 (by decide) (by decide) (by decide) (by decide)
    (Or.inl rfl) (by decide)

/-! ## `float64` rounding -/

theorem roundHalfEven_abs_sub_le (q : ℚ) : |(roundHalfEven q : ℚ) - q| ≤ 1 / 2 := by
  have h1 := Int.floor_le q
  have h2 := Int.lt_floor_add_one q
  unfold roundHalfEven
  split_ifs with ha hb hc
  · rw [abs_le]; constructor <;> linarith
  · rw [abs_le]; push_cast; constructor <;> linarith
  · rw [abs_le]; constructor <;> linarith
  · rw [abs_le]; push_cast; constructor <;> linarith

theorem roundHalfEven_eq_of_abs_lt (q : ℚ) (z : ℤ) (h : |q - z| < 1 / 2) :
    roundHalfEven q = z := by
  have hr := roundHalfEven_abs_sub_le q
  rw [abs_lt] at h
  rw [abs_le] at hr
  have h3 : ((roundHalfEven q - z : ℤ) : ℚ) < 1 := by push_cast; linarith
  have h4 : (-1 : ℚ) < ((roundHalfEven q - z : ℤ) : ℚ) := by push_cast; linarith
  have h5 : roundHalfEven q - z < 1 := by exact_mod_cast h3
  have h6 : -1 < roundHalfEven q - z := by exact_mod_cast h4
  omega

theorem roundHalfEven_intCast (z : ℤ) : roundHalfEven (z : ℚ) = z :=
  roundHalfEven_eq_of_abs_lt _ z (by simp)

theorem binExp_eq (q : ℚ) (e : ℤ) (hq : 0 < q) (hlo : (2 : ℚ) ^ e ≤ q)
    (hhi : q < (2 : ℚ) ^ (e + 1)) : binExp q = e := by
  unfold binExp
  rw [abs_of_pos hq]
  have h1 : e ≤ Int.log 2 q :=
    (Int.zpow_le_iff_le_log (by norm_num) hq).1 (by exact_mod_cast hlo)
  have h2 : Int.log 2 q < e + 1 :=
    (Int.lt_zpow_iff_log_lt (by norm_num) hq).1 (by exact_mod_cast hhi)
  omega

theorem binExp_spec (q : ℚ) (hq : 0 < q) :
    (2 : ℚ) ^ binExp q ≤ q ∧ q < (2 : ℚ) ^ (binExp q + 1) := by
  unfold binExp
  rw [abs_of_pos hq]
  constructor
  · exact_mod_cast @Int.zpow_log_le_self ℚ _ _ 2 q (by norm_num) hq
  · exact_mod_cast @Int.lt_zpow_succ_log_self ℚ _ _ 2 (by norm_num) q

theorem roundF64_zero : roundF64 0 = 0 := by simp [roundF64]

/-- Evaluation of `roundF64` at a positive value from its exponent and its
rounded significand. -/
theorem roundF64_eq (q : ℚ) (e m : ℤ) (hq : 0 < q) (hlo : (2 : ℚ) ^ e ≤ q)
    (hhi : q < (2 : ℚ) ^ (e + 1)) (hm : |q * 2 ^ (52 - e) - m| < 1 / 2) :
    roundF64 q = m * 2 ^ (e - 52) := by
  unfold roundF64
  rw [if_neg (ne_of_gt hq), binExp_eq q e hq hlo hhi, roundHalfEven_eq_of_abs_lt _ m hm]

/-- Integers below `2 ^ 53` are `float64` values. -/
theorem roundF64_intCast (n : ℤ) (h0 : 0 ≤ n) (hn : n < 2 ^ 53) : roundF64 (n : ℚ) = n := by
  rcases eq_or_lt_of_le h0 with h | hpos
  · rw [← h]; simp [roundF64]
  have hq : (0 : ℚ) < n := by exact_mod_cast hpos
  obtain ⟨hlo, hhi⟩ := binExp_spec (n : ℚ) hq
  have he : binExp (n : ℚ) < 53 := by
    have hlt : (2 : ℚ) ^ binExp (n : ℚ) < (2 : ℚ) ^ (53 : ℤ) := by
      refine lt_of_le_of_lt hlo ?_
      have h : (n : ℚ) < ((2 ^ 53 : ℤ) : ℚ) := by exact_mod_cast hn
      norm_num at h ⊢
      exact h
    exact (zpow_lt_zpow_iff_right₀ (by norm_num : (1 : ℚ) < 2)).1 hlt
  obtain ⟨k, hk⟩ : ∃ k : ℕ, 52 - binExp (n : ℚ) = k := ⟨(52 - binExp (n : ℚ)).toNat, by omega⟩
  unfold roundF64
  rw [if_neg (ne_of_gt hq), hk]
  have hcast : (n : ℚ) * 2 ^ (k : ℤ) = ((n * 2 ^ k : ℤ) : ℚ) := by push_cast; simp
  rw [hcast, roundHalfEven_intCast]
  have hk' : binExp (n : ℚ) - 52 = -(k : ℤ) := by omega
  rw [hk']
  push_cast
  rw [zpow_neg, zpow_natCast, mul_assoc, mul_inv_cancel₀ (by positivity), mul_one]

/-- The rounding error of `roundF64` below a power of two. -/
theorem roundF64_abs_sub_le (q : ℚ) (E : ℤ) (hq : 0 < q) (hlt : q < (2 : ℚ) ^ E) :
    |roundF64 q - q| ≤ (2 : ℚ) ^ (E - 54) := by
  obtain ⟨hlo, hhi⟩ := binExp_spec q hq
  have he : binExp q < E :=
    (zpow_lt_zpow_iff_right₀ (by norm_num : (1 : ℚ) < 2)).1 (lt_of_le_of_lt hlo hlt)
  have hr := roundHalfEven_abs_sub_le (q * 2 ^ (52 - binExp q))
  have hpos : (0 : ℚ) < 2 ^ (binExp q - 52) := by positivity
  have hsplit : roundF64 q - q =
      ((roundHalfEven (q * 2 ^ (52 - binExp q)) : ℚ) - q * 2 ^ (52 - binExp q)) *
        2 ^ (binExp q - 52) := by
    unfold roundF64
    rw [if_neg (ne_of_gt hq), sub_mul, mul_assoc, ← zpow_add₀ (by norm_num : (2 : ℚ) ≠ 0)]
    simp
  rw [hsplit, abs_mul, abs_of_pos hpos]
  calc |(roundHalfEven (q * 2 ^ (52 - binExp q)) : ℚ) - q * 2 ^ (52 - binExp q)| *
        2 ^ (binExp q - 52)
      ≤ 1 / 2 * 2 ^ (binExp q - 52) := mul_le_mul_of_nonneg_right hr (le_of_lt hpos)
    _ = 2 ^ (binExp q - 53) := by
        rw [show binExp q - 52 = (binExp q - 53) + 1 by ring,
          zpow_add₀ (by norm_num : (2 : ℚ) ≠ 0)]
        simp
        ring
    _ ≤ 2 ^ (E - 54) := zpow_le_zpow_right₀ (by norm_num) (by omega)

theorem truncInt_eq (q : ℚ) (n : ℤ) (h0 : 0 ≤ n) (hlo : (n : ℚ) ≤ q) (hhi : q < n + 1) :
    truncInt q = n := by
  have hq : (0 : ℚ) ≤ q := le_trans (by exact_mod_cast h0) hlo
  unfold truncInt
  rw [if_pos hq, Int.floor_eq_iff]
  exact ⟨hlo, hhi⟩

/-- For a non-negative whole number of seconds, `int(d.Seconds())` is the
number of seconds. -/
theorem truncInt_Seconds (s : ℤ) (h0 : 0 ≤ s) (hmax : s * Second ≤ maxInt64) :
    truncInt (Seconds (s * Second)) = s := by
  have hs : s < 2 ^ 53 := by unfold Second maxInt64 at hmax; omega
  have hdiv : (s * Second).tdiv Second = s := by
    rw [Int.tdiv_eq_ediv (by unfold Second; omega) (by unfold Second; omega)]
    exact Int.mul_ediv_cancel s (by unfold Second; omega)
  have hmod : (s * Second).tmod Second = 0 := by
    rw [Int.tmod_eq_emod (by unfold Second; omega) (by unfold Second; omega)]
    exact Int.mul_emod_left s Second
  have hval : Seconds (s * Second) = s := by
    unfold Seconds f64Add f64Div float64
    rw [hdiv, hmod]
    simp only [Int.cast_zero, roundF64_zero, zero_div, add_zero]
    rw [roundF64_intCast s h0 hs, roundF64_intCast s h0 hs]
  rw [hval]
  exact truncInt_eq _ s h0 (le_refl _) (by linarith)

/-- For a non-negative whole number of seconds, `int(d.Minutes())` is the
number of whole minutes. -/
theorem truncInt_Minutes (s : ℤ) (h0 : 0 ≤ s) (hmax : s * Second ≤ maxInt64) :
    truncInt (Minutes (s * Second)) = s / 60 := by
  have hs : s ≤ 9223372036 := by unfold Second maxInt64 at hmax; omega
  have hMS : s * Second = (s / 60) * Minute + (s % 60) * Second := by
    unfold Minute Second
    omega
  have hr0 : 0 ≤ s % 60 := Int.emod_nonneg s (by norm_num)
  have hr1 : s % 60 < 60 := Int.emod_lt_of_pos s (by norm_num)
  have hm0 : 0 ≤ s / 60 := Int.ediv_nonneg h0 (by norm_num)
  have hm1 : s / 60 ≤ 153722867 := by omega
  have hdiv : (s * Second).tdiv Minute = s / 60 := by
    rw [Int.tdiv_eq_ediv (by unfold Second; omega) (by unfold Minute; omega)]
    unfold Minute Second
    omega
  have hmod : (s * Second).tmod Minute = (s % 60) * Second := by
    rw [Int.tmod_eq_emod (by unfold Second; omega) (by unfold Minute; omega)]
    unfold Minute Second
    omega
  have hfm : roundF64 ((s / 60 : ℤ) : ℚ) = ((s / 60 : ℤ) : ℚ) :=
    roundF64_intCast _ hm0 (by omega)
  have hfr : roundF64 (((s % 60) * Second : ℤ) : ℚ) = (((s % 60) * Second : ℤ) : ℚ) :=
    roundF64_intCast _ (by unfold Second; omega) (by unfold Second; omega)
  unfold Minutes f64Add f64Div float64
  rw [hdiv, hmod, hfm, hfr]
  have hquot : ((((s % 60) * Second : ℤ) : ℚ)) / 60000000000 = ((s % 60 : ℤ) : ℚ) / 60 := by
    unfold Second
    push_cast
    ring
  rw [hquot]
  rcases eq_or_lt_of_le hr0 with hz | hpos
  · rw [← hz]
    simp only [Int.cast_zero, zero_div, roundF64_zero, add_zero]
    rw [hfm]
    exact truncInt_eq _ _ hm0 (le_refl _) (by linarith)
  · have hrq1 : (1 : ℚ) ≤ ((s % 60 : ℤ) : ℚ) := by exact_mod_cast hpos
    have hrq2 : ((s % 60 : ℤ) : ℚ) ≤ 59 := by
      have : s % 60 ≤ 59 := by omega
      exact_mod_cast this
    have hmq0 : (0 : ℚ) ≤ ((s / 60 : ℤ) : ℚ) := by exact_mod_cast hm0
    have hmq1 : ((s / 60 : ℤ) : ℚ) ≤ 153722867 := by exact_mod_cast hm1
    have hfrac0 : (0 : ℚ) < ((s % 60 : ℤ) : ℚ) / 60 := by positivity
    have hfraclo : (1 : ℚ) / 60 ≤ ((s % 60 : ℤ) : ℚ) / 60 := by
      rw [div_le_div_iff_of_pos_right (by norm_num)]; exact hrq1
    have hfrachi : ((s % 60 : ℤ) : ℚ) / 60 ≤ 59 / 60 := by
      rw [div_le_div_iff_of_pos_right (by norm_num)]; exact hrq2
    have ha := roundF64_abs_sub_le (((s % 60 : ℤ) : ℚ) / 60) 0 hfrac0
      (by norm_num; linarith)
    rw [abs_le] at ha
    have h54 : (2 : ℚ) ^ ((0 : ℤ) - 54) = 1 / 18014398509481984 := by norm_num [zpow_neg]
    rw [h54] at ha
    have hz0 : (0 : ℚ) < ((s / 60 : ℤ) : ℚ) + roundF64 (((s % 60 : ℤ) : ℚ) / 60) := by
      linarith
    have hb := roundF64_abs_sub_le
      (((s / 60 : ℤ) : ℚ) + roundF64 (((s % 60 : ℤ) : ℚ) / 60)) 28 hz0
      (by norm_num; linarith)
    rw [abs_le] at hb
    have h26 : (2 : ℚ) ^ ((28 : ℤ) - 54) = 1 / 67108864 := by norm_num [zpow_neg]
    rw [h26] at hb
    apply truncInt_eq _ _ hm0
    · linarith
    · linarith

/-- Evaluation of `roundF64` with the bounds on the significand spelled out. -/
theorem roundF64_eval (q : ℚ) (e m : ℤ) (v : ℚ) (hq : 0 < q) (hlo : (2 : ℚ) ^ e ≤ q)
    (hhi : q < (2 : ℚ) ^ (e + 1)) (h1 : (m : ℚ) - 1 / 2 < q * 2 ^ (52 - e))
    (h2 : q * 2 ^ (52 - e) < (m : ℚ) + 1 / 2) (hv : (m : ℚ) * 2 ^ (e - 52) = v) :
    roundF64 q = v := by
  rw [← hv]
  exact roundF64_eq q e m hq hlo hhi (abs_lt.2 ⟨by linarith, by linarith⟩)

theorem roundHalfEven_half (f : ℤ) :
    roundHalfEven ((f : ℚ) + 1 / 2) = if f % 2 = 0 then f else f + 1 := by
  have hfl : ⌊(f : ℚ) + 1 / 2⌋ = f := by
    rw [Int.floor_eq_iff]
    constructor <;> linarith
  unfold roundHalfEven
  rw [hfl]
  have h1 : ¬ ((f : ℚ) + 1 / 2 - f < 1 / 2) := by simp
  have h2 : ¬ ((1 : ℚ) / 2 < (f : ℚ) + 1 / 2 - f) := by simp
  rw [if_neg h1, if_neg h2]

/-- Evaluation of `roundF64` when the significand lies halfway between two
integers. -/
theorem roundF64_eval_tie (q : ℚ) (e f m : ℤ) (v : ℚ) (hq : 0 < q) (hlo : (2 : ℚ) ^ e ≤ q)
    (hhi : q < (2 : ℚ) ^ (e + 1)) (ht : q * 2 ^ (52 - e) = (f : ℚ) + 1 / 2)
    (hm : (if f % 2 = 0 then f else f + 1) = m) (hv : (m : ℚ) * 2 ^ (e - 52) = v) :
    roundF64 q = v := by
  unfold roundF64
  rw [if_neg (ne_of_gt hq), binExp_eq q e hq hlo hhi, ht, roundHalfEven_half, hm, hv]

/-- The exact multiples of one fortieth survive the two roundings of
`progress * 40`: `float64(k / 40) * 40` is `k` for `k = 1, ..., 39`. -/
theorem roundF64_fortieth (k : ℤ) (h1 : 1 ≤ k) (h2 : k ≤ 39) :
    roundF64 (roundF64 ((k : ℚ) / 40) * 40) = k := by
  interval_cases k <;> push_cast
  · rw [roundF64_eval ((1 : ℚ) / 40) (-6) 7205759403792794 ((3602879701896397 : ℚ) / 144115188075855872)
      (by norm_num) (by norm_num) (by norm_num) (by norm_num) (by norm_num) (by norm_num)]
    exact roundF64_eval _ (0) 4503599627370496 _
      (by norm_num) (by norm_num) (by norm_num) (by norm_num) (by norm_num) (by norm_num)
  · rw [roundF64_eval ((2 : ℚ) / 40) (-5) 7205759403792794 ((3602879701896397 : ℚ) / 72057594037927936)
      (by norm_num) (by norm_num) (by norm_num) (by norm_num) (by norm_num) (by norm_num)]
    exact roundF64_eval _ (1) 4503599627370496 _
      (by norm_num) (by norm_num) (by norm_num) (by norm_num) (by norm_num) (by norm_num)
  · rw [roundF64_eval ((3 : ℚ) / 40) (-4) 5404319552844595 ((5404319552844595 : ℚ) / 72057594037927936)
      (by norm_num) (by norm_num) (by norm_num) (by norm_num) (by norm_num) (by norm_num)]
    exact roundF64_eval _ (1) 6755399441055744 _
      (by norm_num) (by norm_num) (by norm_num) (by norm_num) (by norm_num) (by norm_num)
  · rw [roundF64_eval ((4 : ℚ) / 40) (-4) 7205759403792794 ((3602879701896397 : ℚ) / 36028797018963968)
      (by norm_num) (by norm_num) (by norm_num) (by norm_num) (by norm_num) (by norm_num)]
    exact roundF64_eval _ (2) 4503599627370496 _
      (by norm_num) (by norm_num) (by norm_num) (by norm_num) (by norm_num) (by norm_num)
  · rw [roundF64_eval ((5 : ℚ) / 40) (-3) 4503599627370496 ((1 : ℚ) / 8)
      (by norm_num) (by norm_num) (by norm_num) (by norm_num) (by norm_num) (by norm_num)]
    exact roundF64_eval _ (2) 5629499534213120 _
      (by norm_num) (by norm_num) (by norm_num) (by norm_num) (by norm_num) (by norm_num)
  · rw [roundF64_eval ((6 : ℚ) / 40) (-3) 5404319552844595 ((5404319552844595 : ℚ) / 36028797018963968)
      (by norm_num) (by norm_num) (by norm_num) (by norm_num) (by norm_num) (by norm_num)]
    exact roundF64_eval _ (2) 6755399441055744 _
      (by norm_num) (by norm_num) (by norm_num) (by norm_num) (by norm_num) (by norm_num)
  · rw [roundF64_eval ((7 : ℚ) / 40) (-3) 6305039478318694 ((3152519739159347 : ℚ) / 18014398509481984)
      (by norm_num) (by norm_num) (by norm_num) (by norm_num) (by norm_num) (by norm_num)]
    exact roundF64_eval_tie _ (2) 7881299347898367 7881299347898368 _
      (by norm_num) (by norm_num) (by norm_num) (by norm_num) (by norm_num) (by norm_num)
  · rw [roundF64_eval ((8 : ℚ) / 40) (-3) 7205759403792794 ((3602879701896397 : ℚ) / 18014398509481984)
      (by norm_num) (by norm_num) (by norm_num) (by norm_num) (by norm_num) (by norm_num)]
    exact roundF64_eval _ (3) 4503599627370496 _
      (by norm_num) (by norm_num) (by norm_num) (by norm_num) (by norm_num) (by norm_num)
  · rw [roundF64_eval ((9 : ℚ) / 40) (-3) 8106479329266893 ((8106479329266893 : ℚ) / 36028797018963968)
      (by norm_num) (by norm_num) (by norm_num) (by norm_num) (by norm_num) (by norm_num)]
    exact roundF64_eval _ (3) 5066549580791808 _
      (by norm_num) (by norm_num) (by norm_num) (by norm_num) (by norm_num) (by norm_num)
  · rw [roundF64_eval ((10 : ℚ) / 40) (-2) 4503599627370496 ((1 : ℚ) / 4)
      (by norm_num) (by norm_num) (by norm_num) (by norm_num) (by norm_num) (by norm_num)]
    exact roundF64_eval _ (3) 5629499534213120 _
      (by norm_num) (by norm_num) (by norm_num) (by norm_num) (by norm_num) (by norm_num)
  · rw [roundF64_eval ((11 : ℚ) / 40) (-2) 4953959590107546 ((2476979795053773 : ℚ) / 9007199254740992)
      (by norm_num) (by norm_num) (by norm_num) (by norm_num) (by norm_num) (by norm_num)]
    exact roundF64_eval_tie _ (3) 6192449487634432 6192449487634432 _
      (by norm_num) (by norm_num) (by norm_num) (by norm_num) (by norm_num) (by norm_num)
  · rw [roundF64_eval ((12 : ℚ) / 40) (-2) 5404319552844595 ((5404319552844595 : ℚ) / 18014398509481984)
      (by norm_num) (by norm_num) (by norm_num) (by norm_num) (by norm_num) (by norm_num)]
    exact roundF64_eval _ (3) 6755399441055744 _
      (by norm_num) (by norm_num) (by norm_num) (by norm_num) (by norm_num) (by norm_num)
  · rw [roundF64_eval ((13 : ℚ) / 40) (-2) 5854679515581645 ((5854679515581645 : ℚ) / 18014398509481984)
      (by norm_num) (by norm_num) (by norm_num) (by norm_num) (by norm_num) (by norm_num)]
    exact roundF64_eval _ (3) 7318349394477056 _
      (by norm_num) (by norm_num) (by norm_num) (by norm_num) (by norm_num) (by norm_num)
  · rw [roundF64_eval ((14 : ℚ) / 40) (-2) 6305039478318694 ((3152519739159347 : ℚ) / 9007199254740992)
      (by norm_num) (by norm_num) (by norm_num) (by norm_num) (by norm_num) (by norm_num)]
    exact roundF64_eval_tie _ (3) 7881299347898367 7881299347898368 _
      (by norm_num) (by norm_num) (by norm_num) (by norm_num) (by norm_num) (by norm_num)
  · rw [roundF64_eval ((15 : ℚ) / 40) (-2) 6755399441055744 ((3 : ℚ) / 8)
      (by norm_num) (by norm_num) (by norm_num) (by norm_num) (by norm_num) (by norm_num)]
    exact roundF64_eval _ (3) 8444249301319680 _
      (by norm_num) (by norm_num) (by norm_num) (by norm_num) (by norm_num) (by norm_num)
  · rw [roundF64_eval ((16 : ℚ) / 40) (-2) 7205759403792794 ((3602879701896397 : ℚ) / 9007199254740992)
      (by norm_num) (by norm_num) (by norm_num) (by norm_num) (by norm_num) (by norm_num)]
    exact roundF64_eval _ (4) 4503599627370496 _
      (by norm_num) (by norm_num) (by norm_num) (by norm_num) (by norm_num) (by norm_num)
  · rw [roundF64_eval ((17 : ℚ) / 40) (-2) 7656119366529843 ((7656119366529843 : ℚ) / 18014398509481984)
      (by norm_num) (by norm_num) (by norm_num) (by norm_num) (by norm_num) (by norm_num)]
    exact roundF64_eval _ (4) 4785074604081152 _
      (by norm_num) (by norm_num) (by norm_num) (by norm_num) (by norm_num) (by norm_num)
  · rw [roundF64_eval ((18 : ℚ) / 40) (-2) 8106479329266893 ((8106479329266893 : ℚ) / 18014398509481984)
      (by norm_num) (by norm_num) (by norm_num) (by norm_num) (by norm_num) (by norm_num)]
    exact roundF64_eval _ (4) 5066549580791808 _
      (by norm_num) (by norm_num) (by norm_num) (by norm_num) (by norm_num) (by norm_num)
  · rw [roundF64_eval ((19 : ℚ) / 40) (-2) 8556839292003942 ((4278419646001971 : ℚ) / 9007199254740992)
      (by norm_num) (by norm_num) (by norm_num) (by norm_num) (by norm_num) (by norm_num)]
    exact roundF64_eval _ (4) 5348024557502464 _
      (by norm_num) (by norm_num) (by norm_num) (by norm_num) (by norm_num) (by norm_num)
  · rw [roundF64_eval ((20 : ℚ) / 40) (-1) 4503599627370496 ((1 : ℚ) / 2)
      (by norm_num) (by norm_num) (by norm_num) (by norm_num) (by norm_num) (by norm_num)]
    exact roundF64_eval _ (4) 5629499534213120 _
      (by norm_num) (by norm_num) (by norm_num) (by norm_num) (by norm_num) (by norm_num)
  · rw [roundF64_eval ((21 : ℚ) / 40) (-1) 4728779608739021 ((4728779608739021 : ℚ) / 9007199254740992)
      (by norm_num) (by norm_num) (by norm_num) (by norm_num) (by norm_num) (by norm_num)]
    exact roundF64_eval _ (4) 5910974510923776 _
      (by norm_num) (by norm_num) (by norm_num) (by norm_num) (by norm_num) (by norm_num)
  · rw [roundF64_eval ((22 : ℚ) / 40) (-1) 4953959590107546 ((2476979795053773 : ℚ) / 4503599627370496)
      (by norm_num) (by norm_num) (by norm_num) (by norm_num) (by norm_num) (by norm_num)]
    exact roundF64_eval_tie _ (4) 6192449487634432 6192449487634432 _
      (by norm_num) (by norm_num) (by norm_num) (by norm_num) (by norm_num) (by norm_num)
  · rw [roundF64_eval ((23 : ℚ) / 40) (-1) 5179139571476070 ((2589569785738035 : ℚ) / 4503599627370496)
      (by norm_num) (by norm_num) (by norm_num) (by norm_num) (by norm_num) (by norm_num)]
    exact roundF64_eval_tie _ (4) 6473924464345087 6473924464345088 _
      (by norm_num) (by norm_num) (by norm_num) (by norm_num) (by norm_num) (by norm_num)
  · rw [roundF64_eval ((24 : ℚ) / 40) (-1) 5404319552844595 ((5404319552844595 : ℚ) / 9007199254740992)
      (by norm_num) (by norm_num) (by norm_num) (by norm_num) (by norm_num) (by norm_num)]
    exact roundF64_eval _ (4) 6755399441055744 _
      (by norm_num) (by norm_num) (by norm_num) (by norm_num) (by norm_num) (by norm_num)
  · rw [roundF64_eval ((25 : ℚ) / 40) (-1) 5629499534213120 ((5 : ℚ) / 8)
      (by norm_num) (by norm_num) (by norm_num) (by norm_num) (by norm_num) (by norm_num)]
    exact roundF64_eval _ (4) 7036874417766400 _
      (by norm_num) (by norm_num) (by norm_num) (by norm_num) (by norm_num) (by norm_num)
  · rw [roundF64_eval ((26 : ℚ) / 40) (-1) 5854679515581645 ((5854679515581645 : ℚ) / 9007199254740992)
      (by norm_num) (by norm_num) (by norm_num) (by norm_num) (by norm_num) (by norm_num)]
    exact roundF64_eval _ (4) 7318349394477056 _
      (by norm_num) (by norm_num) (by norm_num) (by norm_num) (by norm_num) (by norm_num)
  · rw [roundF64_eval ((27 : ℚ) / 40) (-1) 6079859496950170 ((3039929748475085 : ℚ) / 4503599627370496)
      (by norm_num) (by norm_num) (by norm_num) (by norm_num) (by norm_num) (by norm_num)]
    exact roundF64_eval_tie _ (4) 7599824371187712 7599824371187712 _
      (by norm_num) (by norm_num) (by norm_num) (by norm_num) (by norm_num) (by norm_num)
  · rw [roundF64_eval ((28 : ℚ) / 40) (-1) 6305039478318694 ((3152519739159347 : ℚ) / 4503599627370496)
      (by norm_num) (by norm_num) (by norm_num) (by norm_num) (by norm_num) (by norm_num)]
    exact roundF64_eval_tie _ (4) 7881299347898367 7881299347898368 _
      (by norm_num) (by norm_num) (by norm_num) (by norm_num) (by norm_num) (by norm_num)
  · rw [roundF64_eval ((29 : ℚ) / 40) (-1) 6530219459687219 ((6530219459687219 : ℚ) / 9007199254740992)
      (by norm_num) (by norm_num) (by norm_num) (by norm_num) (by norm_num) (by norm_num)]
    exact roundF64_eval _ (4) 8162774324609024 _
      (by norm_num) (by norm_num) (by norm_num) (by norm_num) (by norm_num) (by norm_num)
  · rw [roundF64_eval ((30 : ℚ) / 40) (-1) 6755399441055744 ((3 : ℚ) / 4)
      (by norm_num) (by norm_num) (by norm_num) (by norm_num) (by norm_num) (by norm_num)]
    exact roundF64_eval _ (4) 8444249301319680 _
      (by norm_num) (by norm_num) (by norm_num) (by norm_num) (by norm_num) (by norm_num)
  · rw [roundF64_eval ((31 : ℚ) / 40) (-1) 6980579422424269 ((6980579422424269 : ℚ) / 9007199254740992)
      (by norm_num) (by norm_num) (by norm_num) (by norm_num) (by norm_num) (by norm_num)]
    exact roundF64_eval _ (4) 8725724278030336 _
      (by norm_num) (by norm_num) (by norm_num) (by norm_num) (by norm_num) (by norm_num)
  · rw [roundF64_eval ((32 : ℚ) / 40) (-1) 7205759403792794 ((3602879701896397 : ℚ) / 4503599627370496)
      (by norm_num) (by norm_num) (by norm_num) (by norm_num) (by norm_num) (by norm_num)]
    exact roundF64_eval _ (5) 4503599627370496 _
      (by norm_num) (by norm_num) (by norm_num) (by norm_num) (by norm_num) (by norm_num)
  · rw [roundF64_eval ((33 : ℚ) / 40) (-1) 7430939385161318 ((3715469692580659 : ℚ) / 4503599627370496)
      (by norm_num) (by norm_num) (by norm_num) (by norm_num) (by norm_num) (by norm_num)]
    exact roundF64_eval _ (5) 4644337115725824 _
      (by norm_num) (by norm_num) (by norm_num) (by norm_num) (by norm_num) (by norm_num)
  · rw [roundF64_eval ((34 : ℚ) / 40) (-1) 7656119366529843 ((7656119366529843 : ℚ) / 9007199254740992)
      (by norm_num) (by norm_num) (by norm_num) (by norm_num) (by norm_num) (by norm_num)]
    exact roundF64_eval _ (5) 4785074604081152 _
      (by norm_num) (by norm_num) (by norm_num) (by norm_num) (by norm_num) (by norm_num)
  · rw [roundF64_eval ((35 : ℚ) / 40) (-1) 7881299347898368 ((7 : ℚ) / 8)
      (by norm_num) (by norm_num) (by norm_num) (by norm_num) (by norm_num) (by norm_num)]
    exact roundF64_eval _ (5) 4925812092436480 _
      (by norm_num) (by norm_num) (by norm_num) (by norm_num) (by norm_num) (by norm_num)
  · rw [roundF64_eval ((36 : ℚ) / 40) (-1) 8106479329266893 ((8106479329266893 : ℚ) / 9007199254740992)
      (by norm_num) (by norm_num) (by norm_num) (by norm_num) (by norm_num) (by norm_num)]
    exact roundF64_eval _ (5) 5066549580791808 _
      (by norm_num) (by norm_num) (by norm_num) (by norm_num) (by norm_num) (by norm_num)
  · rw [roundF64_eval ((37 : ℚ) / 40) (-1) 8331659310635418 ((4165829655317709 : ℚ) / 4503599627370496)
      (by norm_num) (by norm_num) (by norm_num) (by norm_num) (by norm_num) (by norm_num)]
    exact roundF64_eval _ (5) 5207287069147136 _
      (by norm_num) (by norm_num) (by norm_num) (by norm_num) (by norm_num) (by norm_num)
  · rw [roundF64_eval ((38 : ℚ) / 40) (-1) 8556839292003942 ((4278419646001971 : ℚ) / 4503599627370496)
      (by norm_num) (by norm_num) (by norm_num) (by norm_num) (by norm_num) (by norm_num)]
    exact roundF64_eval _ (5) 5348024557502464 _
      (by norm_num) (by norm_num) (by norm_num) (by norm_num) (by norm_num) (by norm_num)
  · rw [roundF64_eval ((39 : ℚ) / 40) (-1) 8782019273372467 ((8782019273372467 : ℚ) / 9007199254740992)
      (by norm_num) (by norm_num) (by norm_num) (by norm_num) (by norm_num) (by norm_num)]
    exact roundF64_eval _ (5) 5488762045857792 _
      (by norm_num) (by norm_num) (by norm_num) (by norm_num) (by norm_num) (by norm_num)

/-- The two roundings and the truncation of `int(progress * 40)` give the floor
of the exact value when the total is at most `2 ^ 47` nanoseconds. -/
theorem progress_floor (e t : ℤ) (he0 : 0 ≤ e) (het : e ≤ t) (ht0 : 0 < t)
    (ht : t ≤ 140737488355328) :
    truncInt (f64Mul (f64Div (float64 e) (float64 t)) (float64 40)) =
      ⌊(40 : ℚ) * ((e : ℚ) / t)⌋ := by
  have hfe : roundF64 (e : ℚ) = e := roundF64_intCast e he0 (by omega)
  have hft : roundF64 (t : ℚ) = t := roundF64_intCast t (le_of_lt ht0) (by omega)
  have h40 : roundF64 ((40 : ℤ) : ℚ) = 40 := by
    rw [roundF64_intCast 40 (by norm_num) (by norm_num)]
    norm_num
  unfold f64Mul f64Div float64
  rw [hfe, hft, h40]
  have htq : (0 : ℚ) < t := by exact_mod_cast ht0
  have hdm : t * (40 * e / t) + 40 * e % t = 40 * e := Int.ediv_add_emod (40 * e) t
  have hr0 : 0 ≤ 40 * e % t := Int.emod_nonneg _ (ne_of_gt ht0)
  have hr1 : 40 * e % t < t := Int.emod_lt_of_pos _ ht0
  have hk0 : 0 ≤ 40 * e / t := Int.ediv_nonneg (by omega) (le_of_lt ht0)
  generalize hk : 40 * e / t = k at hdm hk0
  generalize hr : 40 * e % t = r at hdm hr0 hr1
  have hx : (40 : ℚ) * ((e : ℚ) / t) = k + (r : ℚ) / t := by
    have h : ((t * k + r : ℤ) : ℚ) = ((40 * e : ℤ) : ℚ) := by rw [hdm]
    push_cast at h
    field_simp
    linarith
  have hrq0 : (0 : ℚ) ≤ (r : ℚ) / t := div_nonneg (by exact_mod_cast hr0) (le_of_lt htq)
  have hrq1 : (r : ℚ) / t < 1 := by
    rw [div_lt_one htq]
    exact_mod_cast hr1
  have hfloor : ⌊(40 : ℚ) * ((e : ℚ) / t)⌋ = k := by
    rw [Int.floor_eq_iff, hx]
    constructor <;> linarith
  rw [hfloor]
  rcases eq_or_lt_of_le hr0 with hz | hrpos
  · -- the exact value is the integer `k`
    have hke : t * k = 40 * e := by rw [← hdm, ← hz]; ring
    have hk40 : k ≤ 40 := by
      by_contra hcon
      have : t * 41 ≤ t * k := Int.mul_le_mul_of_nonneg_left (by omega) (le_of_lt ht0)
      omega
    have hxk : (e : ℚ) / t = (k : ℚ) / 40 := by
      have h : ((t * k : ℤ) : ℚ) = ((40 * e : ℤ) : ℚ) := by rw [hke]
      push_cast at h
      field_simp
      linarith
    rw [hxk]
    have hval : roundF64 (roundF64 ((k : ℚ) / 40) * 40) = k := by
      rcases eq_or_lt_of_le hk0 with h0 | hpos
      · rw [← h0]
        simp [roundF64_zero]
      · rcases eq_or_lt_of_le hk40 with h40' | hlt
        · rw [h40']
          have h1 : roundF64 (((40 : ℤ) : ℚ) / 40) = 1 := by
            have := roundF64_intCast 1 (by norm_num) (by norm_num)
            norm_num at this ⊢
            exact this
          rw [h1, one_mul]
          exact roundF64_intCast 40 (by norm_num) (by norm_num)
        · exact roundF64_fortieth k (by omega) (by omega)
    rw [hval]
    exact truncInt_eq _ k hk0 (le_refl _) (by linarith)
  · -- the exact value is at least `1 / t` away from every integer
    have hepos : 0 < e := by
      by_contra hcon
      have : e = 0 := by omega
      subst this
      simp at hr
      omega
    have helt : e < t := by
      by_contra hcon
      have : e = t := by omega
      subst this
      have : 40 * e % e = 0 := Int.mul_emod_left 40 e
      omega
    have hinv : (1 : ℚ) / 140737488355328 ≤ 1 / (t : ℚ) := by
      apply one_div_le_one_div_of_le htq
      exact_mod_cast ht
    have hrlo : (1 : ℚ) / t ≤ (r : ℚ) / t := by
      rw [div_le_div_iff_of_pos_right htq]
      exact_mod_cast hrpos
    have hrhi : (r : ℚ) / t ≤ 1 - 1 / t := by
      have h : (r : ℚ) + 1 ≤ t := by exact_mod_cast hr1
      rw [le_sub_iff_add_le, ← add_div, div_le_one htq]
      exact h
    have hx0 : (0 : ℚ) < (e : ℚ) / t := div_pos (by exact_mod_cast hepos) htq
    have hx1 : (e : ℚ) / t < 1 := by
      rw [div_lt_one htq]
      exact_mod_cast helt
    have ha := roundF64_abs_sub_le ((e : ℚ) / t) 0 hx0 (by simpa using hx1)
    rw [abs_le] at ha
    have h54 : (2 : ℚ) ^ ((0 : ℤ) - 54) = 1 / 18014398509481984 := by norm_num [zpow_neg]
    rw [h54] at ha
    have hkq0 : (0 : ℚ) ≤ (k : ℚ) := by exact_mod_cast hk0
    have hy0 : (0 : ℚ) < roundF64 ((e : ℚ) / t) * 40 := by nlinarith
    have hy1 : roundF64 ((e : ℚ) / t) * 40 < (2 : ℚ) ^ (6 : ℤ) := by
      norm_num
      linarith
    have hb := roundF64_abs_sub_le (roundF64 ((e : ℚ) / t) * 40) 6 hy0 hy1
    rw [abs_le] at hb
    have h48 : (2 : ℚ) ^ ((6 : ℤ) - 54) = 1 / 281474976710656 := by norm_num [zpow_neg]
    rw [h48] at hb
    apply truncInt_eq _ k hk0
    · linarith
    · linarith

/-! ### The clock and the bar of `View` -/

/-- For a non-negative whole number of seconds within `int64`, the clock shows
the whole minutes and the seconds modulo sixty. -/
theorem View_clock_whole_seconds (m : Model) (s : ℕ) (hrem : m.remaining = (s : ℤ) * Second)
    (hmax : m.remaining ≤ maxInt64) :
    View.clock m = fmt02d ((s / 60 : ℕ) : ℤ) ++ ":" ++ fmt02d ((s % 60 : ℕ) : ℤ) := by
  have h0 : (0 : ℤ) ≤ (s : ℤ) := Int.natCast_nonneg s
  rw [hrem] at hmax
  unfold View.clock
  simp only [hrem, truncInt_Seconds (s : ℤ) h0 hmax, truncInt_Minutes (s : ℤ) h0 hmax]
  rw [Int.tmod_eq_emod h0 (by norm_num)]
  norm_cast

/-- With `0 ≤ remaining ≤ totalDuration ≤ 2 ^ 47` nanoseconds, `filled` is the
floor of forty times the exact elapsed fraction. -/
theorem View_filled_eq_floor (m : Model) (h0 : 0 ≤ m.remaining)
    (hle : m.remaining ≤ m.totalDuration) (htot : m.totalDuration ≤ 140737488355328) :
    View.filled m = ⌊40 * specFraction m⌋ := by
  have hwrap : wrapInt64 (m.totalDuration - m.remaining) = m.totalDuration - m.remaining :=
    wrapInt64_eq_self (by unfold minInt64; omega) (by unfold maxInt64; omega)
  unfold View.filled specFraction View.progressWidth
  simp only [hwrap]
  by_cases hpos : m.totalDuration > 0
  · rw [if_pos hpos, if_neg (ne_of_gt hpos)]
    exact progress_floor _ _ (by omega) (by omega) hpos htot
  · have hz : m.totalDuration = 0 := by omega
    rw [if_neg hpos, if_pos hz]
    simp [f64Mul, roundF64_zero, truncInt]

/-- The value of `filled` in `longRunState`: the conversion of the elapsed
nanoseconds to `float64` and the two roundings of `progress * 40` end below 26. -/
theorem View_filled_longRunState : View.filled longRunState = 25 := by
  have hwrap : wrapInt64 (longRunState.totalDuration - longRunState.remaining) =
      5995074813000000000 := by decide
  have htot : longRunState.totalDuration = 9223192020000000000 := by decide
  have h1 : roundF64 (5995074813000000000 : ℚ) = (5995074812999999488 : ℚ) :=
    roundF64_eval_tie (5995074813000000000 : ℚ) (62) 5854565247070312 5854565247070312 (5995074812999999488 : ℚ)
      (by norm_num) (by norm_num) (by norm_num) (by norm_num) (by norm_num) (by norm_num)
  have h2 : roundF64 (9223192020000000000 : ℚ) = (9223192020000000000 : ℚ) :=
    roundF64_eval (9223192020000000000 : ℚ) (62) 9007023457031250 (9223192020000000000 : ℚ)
      (by norm_num) (by norm_num) (by norm_num) (by norm_num) (by norm_num) (by norm_num)
  have h3 : roundF64 ((5995074812999999488 : ℚ) / (9223192020000000000 : ℚ)) = ((1463669878895411 : ℚ) / 2251799813685248) := by
    have h := roundF64_eval ((2927282623535156 : ℚ) / 4503511728515625) (-1) 5854679515581644 ((1463669878895411 : ℚ) / 2251799813685248) (by norm_num) (by norm_num) (by norm_num) (by norm_num) (by norm_num) (by norm_num)
    norm_num at h ⊢
    exact h
  have h4 : roundF64 (((1463669878895411 : ℚ) / 2251799813685248) * 40) = ((7318349394477055 : ℚ) / 281474976710656) := by
    have h := roundF64_eval ((7318349394477055 : ℚ) / 281474976710656) (4) 7318349394477055 ((7318349394477055 : ℚ) / 281474976710656) (by norm_num) (by norm_num) (by norm_num) (by norm_num) (by norm_num) (by norm_num)
    norm_num at h ⊢
    exact h
  have h40 : roundF64 (40 : ℚ) = 40 := by
    have h := roundF64_intCast 40 (by norm_num) (by norm_num)
    norm_num at h
    exact h
  unfold View.filled View.progressWidth f64Mul f64Div float64
  simp only [hwrap]
  simp only [htot]
  rw [if_pos (by norm_num)]
  push_cast
  rw [h1, h2, h3, h40, h4]
  exact truncInt_eq _ 25 (by norm_num) (by norm_num) (by norm_num)

theorem View_clock_longRunState : View.clock longRunState = "53801953:27" := by
  rw [View_clock_whole_seconds longRunState 3228117207 (by decide) (by decide)]
  decide

/-- C14 as stated fails: `longRunState` satisfies
`0 ≤ remaining ≤ totalDuration` and is the state after the toggle key and
5995074813 ticks from `NewModel 153719867 5 both`; forty times its exact
elapsed fraction has floor 26, so the specification fills cell 25, but the
`float64` computation of `View` gives `filled = 25` and leaves cell 25 blank. -/
theorem progress_bar_rounding :
    0 ≤ longRunState.remaining ∧ longRunState.remaining ≤ longRunState.totalDuration ∧
      run (NewModel 153719867 5 NotifyBoth)
        (Msg.KeyMsg "g" :: List.replicate 5995074813 Msg.TickMsg) = longRunState ∧
      ⌊40 * specFraction longRunState⌋ = 26 ∧
      View.filled longRunState = 25 ∧
      View.bar longRunState = "[==============53801953:27               ]" ∧
      specBar longRunState = "[==============53801953:27=              ]" := by
  have hfloor : ⌊40 * specFraction longRunState⌋ = 26 := by
    have hf : specFraction longRunState = (5995074813000000000 : ℚ) / 9223192020000000000 := by
      unfold specFraction
      rw [if_neg (by decide)]
      have ht : longRunState.totalDuration = 9223192020000000000 := by decide
      have he : longRunState.totalDuration - longRunState.remaining = 5995074813000000000 := by decide
      rw [he, ht]
      norm_num
    rw [hf, Int.floor_eq_iff]
    constructor <;> norm_num
  refine ⟨by decide, by decide, ?_, hfloor, View_filled_longRunState, ?_, ?_⟩
  · have hnew := NewModel_eq_of_fits 153719867 5 NotifyBoth (by decide) (by decide)
      (by decide) (by decide)
    rw [run_cons, hnew]
    have htog : (Update
        { workDuration := 153719867 * Minute, breakDuration := 5 * Minute,
          remaining := 153719867 * Minute, state := WorkState, running := false,
          totalDuration := 153719867 * Minute, notifyMode := NotifyBoth }
        (Msg.KeyMsg "g")).model =
        { workDuration := 153719867 * Minute, breakDuration := 5 * Minute,
          remaining := 153719867 * Minute, state := WorkState, running := true,
          totalDuration := 153719867 * Minute, notifyMode := NotifyBoth } := by
      decide
    rw [htog]
    refine (run_ticks 5995074813 _ rfl (by decide) (by decide)).1.trans ?_
    decide
  · simp only [View.bar, View.barCell, View.clockStart, View.clockEnd, View_clock_longRunState,
      View_filled_longRunState]
    decide
  · simp only [specBar, specCell, View_clock_longRunState, hfloor]
    decide

/-- C14 (amended): for every state with
`0 ≤ remaining ≤ totalDuration ≤ 2 ^ 47` nanoseconds (about 39 hours) the
progress bar built by `View` is `[`, exactly forty cells, `]`, where the clock
text occupies the centered run of cells starting at cell
`(40 - len(clock)) / 2` and every other cell `i` is `=` when
`i < floor (40 * f)` and a space otherwise, `f` being the exact elapsed
fraction `(totalDuration - remaining) / totalDuration`, `0` when
`totalDuration = 0`. -/
theorem progress_bar_cells (m : Model) (h0 : 0 ≤ m.remaining)
    (hle : m.remaining ≤ m.totalDuration) (htot : m.totalDuration ≤ 140737488355328) :
    View.bar m = specBar m ∧ (View.bar m).length = 42 := by
  have hfilled := View_filled_eq_floor m h0 hle htot
  constructor
  · unfold View.bar specBar
    have hcells : (List.range View.progressWidth.toNat).map
          (fun (i : ℕ) => View.barCell m (i : ℤ)) =
        (List.range 40).map (fun i => specCell m i) := by
      have hw : View.progressWidth.toNat = 40 := by decide
      rw [hw]
      apply List.map_congr_left
      intro i _
      simp only [View.barCell, specCell, View.clockStart, View.clockEnd, View.progressWidth,
        hfilled, ge_iff_le]
    rw [hcells]
  · unfold View.bar
    have hw : View.progressWidth.toNat = 40 := by decide
    rw [String.length_append, String.length_append]
    show "[".length + (List.map _ _).length + "]".length = 42
    rw [List.length_map, List.length_range, hw]
    rfl

theorem progress_bar_cells_witness :
    View.bar
        { workDuration := 0, breakDuration := 5 * Minute, remaining := 0, state := WorkState,
          running := false, totalDuration := 0, notifyMode := NotifyBoth } =
      "[                 00:00                  ]" :=
  (progress_bar_cells
    { workDuration := 0, breakDuration := 5 * Minute, remaining := 0, state := WorkState,
      running := false, totalDuration := 0, notifyMode := NotifyBoth }
    (by decide) (by decide) (by decide)).1.trans (by
      have hclock : View.clock
          { workDuration := 0, breakDuration := 5 * Minute, remaining := 0, state := WorkState,
            running := false, totalDuration := 0, notifyMode := NotifyBoth } = "00:00" := by
        rw [View_clock_whole_seconds _ 0 (by decide) (by decide)]
        decide
      have hfloor : ⌊40 * specFraction
          { workDuration := 0, breakDuration := 5 * Minute, remaining := 0, state := WorkState,
            running := false, totalDuration := 0, notifyMode := NotifyBoth }⌋ = 0 := by
        simp [specFraction]
      simp only [specBar, specCell, hclock, hfloor]
      decide)

/-- C15: for every `remaining` that is a non-negative whole number of seconds
(within `int64`), the clock text of `View` is the whole minutes of `remaining`
(`remaining / Minute`, not reduced modulo 60) in decimal, padded on the left
with zeros to at least two digits, then `:`, then the whole seconds of
`remaining` modulo 60 in decimal, padded with zeros to two digits. -/
theorem clock_minutes_seconds (m : Model) (h0 : 0 ≤ m.remaining)
    (hsec : Second ∣ m.remaining) (hmax : m.remaining ≤ maxInt64) :
    View.clock m =
      String.mk (List.leftpad 2 '0' (Nat.toDigits 10 (m.remaining / Minute).toNat)) ++ ":" ++
        String.mk (List.leftpad 2 '0' (Nat.toDigits 10 (m.remaining / Second % 60).toNat)) := by
  obtain ⟨c, hc⟩ := hsec
  have hc0 : 0 ≤ c := by unfold Second at hc; omega
  obtain ⟨s, hs⟩ : ∃ s : ℕ, c = (s : ℤ) := ⟨c.toNat, (Int.toNat_of_nonneg hc0).symm⟩
  have hrem : m.remaining = (s : ℤ) * Second := by rw [hc, hs, mul_comm]
  rw [View_clock_whole_seconds m s hrem hmax]
  have hmin : (m.remaining / Minute).toNat = s / 60 := by
    have : m.remaining / Minute = ((s / 60 : ℕ) : ℤ) := by
      rw [hrem]
      unfold Minute Second
      push_cast
      omega
    rw [this, Int.toNat_natCast]
  have hsecs : (m.remaining / Second % 60).toNat = s % 60 := by
    have : m.remaining / Second % 60 = ((s % 60 : ℕ) : ℤ) := by
      rw [hrem]
      unfold Second
      push_cast
      omega
    rw [this, Int.toNat_natCast]
  rw [hmin, hsecs]
  have hfmt : ∀ n : ℕ, fmt02d (n : ℤ) = String.mk (List.leftpad 2 '0' (Nat.toDigits 10 n)) := by
    intro n
    unfold fmt02d
    rw [if_neg (by omega), Int.toNat_natCast]
  rw [hfmt, hfmt]

theorem clock_minutes_seconds_witness :
    View.clock
        { workDuration := 100 * Minute, breakDuration := 5 * Minute, remaining := 100 * Minute,
          state := WorkState, running := false, totalDuration := 100 * Minute,
          notifyMode := NotifyBoth } = "100:00" :=
  (clock_minutes_seconds
    { workDuration := 100 * Minute, breakDuration := 5 * Minute, remaining := 100 * Minute,
      state := WorkState, running := false, totalDuration := 100 * Minute,
      notifyMode := NotifyBoth }
    (by decide) (by decide) (by decide)).trans (by decide)

end Pomodoro
